import Mathlib

/-!
# Chat transcript controller of `App.jsx`

A shallow embedding of `handleSubmit` (the submission controller and the
server-sent-event stream loop), `handleRestart` and `handleKeyPress` of
`src/web/frontend/src/App.jsx` and `src/deploy/frontend/src/App.jsx`.  The definitions
directly in `ChatApp` embed the web copy; the namespace `ChatApp.Deploy` embeds the
handlers of the deploy copy, which are proved to be the same functions.

JavaScript strings are sequences of UTF-16 code units; they are modelled as
`List Nat`.  The React state (`messages`, `input`, `isLoading`, `error`) is an
explicit record, `setX` calls are state passing, and a thrown exception is a
completion that carries the state reached when it was thrown.
-/

namespace ChatApp

/-! ## JavaScript strings -/

/-- A JavaScript string: its UTF-16 code units. -/
abbrev JSString := List Nat

/-- UTF-16 code units of one character. -/
def utf16Char (c : Char) : List Nat :=
  if c.toNat < 0x10000 then [c.toNat]
  else [0xD800 + (c.toNat - 0x10000) / 0x400, 0xDC00 + (c.toNat - 0x10000) % 0x400]

/-- UTF-16 code units of a string literal. -/
def utf16 (s : String) : JSString :=
  s.toList.flatMap utf16Char

/-- Code units that `String.prototype.trim` strips: WhiteSpace and LineTerminator. -/
def isTrimSpace (c : Nat) : Bool :=
  c = 0x09 || c = 0x0A || c = 0x0B || c = 0x0C || c = 0x0D || c = 0x20 || c = 0xA0 ||
  c = 0x1680 || (0x2000 ≤ c && c ≤ 0x200A) || c = 0x2028 || c = 0x2029 || c = 0x202F ||
  c = 0x205F || c = 0x3000 || c = 0xFEFF

/-- The method `String.prototype.trim`. -/
def trim (s : JSString) : JSString :=
  ((s.dropWhile isTrimSpace).reverse.dropWhile isTrimSpace).reverse

/-- The method `String.prototype.startsWith`. -/
def startsWith (s pre : JSString) : Bool :=
  pre.isPrefixOf s

/-- The call `s.replace(pat, '')` with a string pattern: the first occurrence of `pat`
is removed, and `s` is returned as it is when there is none. -/
def replaceFirstWithEmpty (pat : JSString) : JSString → JSString
  | [] => []
  | c :: cs => if pat.isPrefixOf (c :: cs) then (c :: cs).drop pat.length
               else c :: replaceFirstWithEmpty pat cs

/-- The call `chunk.split('\n\n')`: the pieces between the leftmost non-overlapping
occurrences of two line feeds; the empty string gives one empty piece. -/
def splitBlankLine : JSString → List JSString
  | [] => [[]]
  | [c] => [[c]]
  | c :: d :: rest =>
    if c = 0x0A ∧ d = 0x0A then [] :: splitBlankLine rest
    else
      match splitBlankLine (d :: rest) with
      | [] => [[c]]
      | p :: ps => (c :: p) :: ps

/-- Decimal digits of a number, as in a template literal of an integer. -/
def decimal (n : Nat) : JSString :=
  (Nat.toDigits 10 n).map Char.toNat

/-! ## JSON values and `JSON.parse` -/

/-- A value produced by `JSON.parse`.  A number keeps its source text; an object keeps
its members in source order. -/
inductive JsValue where
  | null : JsValue
  | bool (b : Bool) : JsValue
  | num (lexeme : JSString) : JsValue
  | str (s : JSString) : JsValue
  | arr (items : List JsValue) : JsValue
  | obj (members : List (JSString × JsValue)) : JsValue

/-- JSON insignificant whitespace: space, tab, line feed, carriage return. -/
def isJsonSpace (c : Nat) : Bool :=
  c = 0x20 || c = 0x09 || c = 0x0A || c = 0x0D

/-- Drop leading JSON whitespace. -/
def skipWs : JSString → JSString
  | [] => []
  | c :: cs => if isJsonSpace c then skipWs cs else c :: cs

/-- Value of a hexadecimal digit. -/
def hexVal (c : Nat) : Option Nat :=
  if 0x30 ≤ c ∧ c ≤ 0x39 then some (c - 0x30)
  else if 0x41 ≤ c ∧ c ≤ 0x46 then some (c - 0x41 + 10)
  else if 0x61 ≤ c ∧ c ≤ 0x66 then some (c - 0x61 + 10)
  else none

/-- The code unit denoted by the four digits of a `\uXXXX` escape. -/
def hex4 (a b c d : Nat) : Option Nat :=
  match hexVal a, hexVal b, hexVal c, hexVal d with
  | some x, some y, some z, some w => some (x * 4096 + y * 256 + z * 16 + w)
  | _, _, _, _ => none

/-- The code unit denoted by a one-letter escape. -/
def simpleEscape (c : Nat) : Option Nat :=
  if c = 0x22 then some 0x22
  else if c = 0x5C then some 0x5C
  else if c = 0x2F then some 0x2F
  else if c = 0x62 then some 0x08
  else if c = 0x66 then some 0x0C
  else if c = 0x6E then some 0x0A
  else if c = 0x72 then some 0x0D
  else if c = 0x74 then some 0x09
  else none

/-- Put a code unit in front of a parsed string. -/
def consUnit (c : Nat) : Option (JSString × JSString) → Option (JSString × JSString)
  | none => none
  | some (s, rest) => some (c :: s, rest)

/-- Characters of a JSON string after its opening quote, up to the closing quote:
the string denoted and the text that follows the closing quote. -/
def parseStringBody : JSString → Option (JSString × JSString)
  | [] => none
  | c :: cs =>
    if c = 0x22 then some ([], cs)
    else if c = 0x5C then
      match cs with
      | [] => none
      | e :: es =>
        if e = 0x75 then
          match es with
          | h1 :: h2 :: h3 :: h4 :: rest =>
            match hex4 h1 h2 h3 h4 with
            | some u => consUnit u (parseStringBody rest)
            | none => none
          | _ => none
        else
          match simpleEscape e with
          | some u => consUnit u (parseStringBody es)
          | none => none
    else if c < 0x20 then none
    else consUnit c (parseStringBody cs)

/-- Is the code unit a decimal digit. -/
def isDigit (c : Nat) : Bool :=
  0x30 ≤ c && c ≤ 0x39

/-- The longest prefix of digits and the rest. -/
def spanDigits : JSString → JSString × JSString
  | [] => ([], [])
  | c :: cs =>
    if isDigit c then ((spanDigits cs).1.cons c, (spanDigits cs).2) else ([], c :: cs)

/-- The integer part of a JSON number: `0`, or a digit from 1 to 9 and more digits. -/
def parseInt : JSString → Option (JSString × JSString)
  | [] => none
  | c :: cs =>
    if c = 0x30 then some ([c], cs)
    else if isDigit c then some (c :: (spanDigits cs).1, (spanDigits cs).2)
    else none

/-- The optional fraction of a JSON number: a dot and at least one digit. -/
def parseFrac : JSString → Option (JSString × JSString)
  | 0x2E :: cs =>
    match spanDigits cs with
    | ([], _) => none
    | (ds, rest) => some (0x2E :: ds, rest)
  | s => some ([], s)

/-- The digits of an exponent, after the sign: at least one. -/
def parseExpDigits (pre : JSString) (s : JSString) : Option (JSString × JSString) :=
  match spanDigits s with
  | ([], _) => none
  | (ds, rest) => some (pre ++ ds, rest)

/-- The optional exponent of a JSON number. -/
def parseExp : JSString → Option (JSString × JSString)
  | [] => some ([], [])
  | c :: cs =>
    if c = 0x65 ∨ c = 0x45 then
      match cs with
      | [] => none
      | d :: ds =>
        if d = 0x2B ∨ d = 0x2D then parseExpDigits [c, d] ds
        else parseExpDigits [c] (d :: ds)
    else some ([], c :: cs)

/-- A JSON number without its sign: its text and the rest. -/
def parseUnsigned (s : JSString) : Option (JSString × JSString) :=
  match parseInt s with
  | none => none
  | some (i, r1) =>
    match parseFrac r1 with
    | none => none
    | some (f, r2) =>
      match parseExp r2 with
      | none => none
      | some (e, r3) => some (i ++ f ++ e, r3)

/-- A JSON number: its text and the rest. -/
def parseNumber : JSString → Option (JSString × JSString)
  | 0x2D :: cs => consUnit 0x2D (parseUnsigned cs)
  | s => parseUnsigned s

/-- What the parser is reading: a value, the items of an array after `[`, or the members
of an object after `{`. -/
inductive ParseGoal where
  | value : ParseGoal
  | items (acc : List JsValue) : ParseGoal
  | members (acc : List (JSString × JsValue)) : ParseGoal

/-- Recursive-descent JSON parser; `fuel` bounds the nesting and the number of items read. -/
def parseJson : Nat → ParseGoal → JSString → Option (JsValue × JSString)
  | 0, _, _ => none
  | fuel + 1, .value, s =>
    match skipWs s with
    | [] => none
    | c :: cs =>
      if c = 0x22 then
        match parseStringBody cs with
        | some (x, rest) => some (.str x, rest)
        | none => none
      else if c = 0x5B then
        match skipWs cs with
        | 0x5D :: rest => some (.arr [], rest)
        | _ => parseJson fuel (.items []) cs
      else if c = 0x7B then
        match skipWs cs with
        | 0x7D :: rest => some (.obj [], rest)
        | _ => parseJson fuel (.members []) cs
      else if [0x74, 0x72, 0x75, 0x65].isPrefixOf (c :: cs) then
        some (.bool true, (c :: cs).drop 4)
      else if [0x66, 0x61, 0x6C, 0x73, 0x65].isPrefixOf (c :: cs) then
        some (.bool false, (c :: cs).drop 5)
      else if [0x6E, 0x75, 0x6C, 0x6C].isPrefixOf (c :: cs) then
        some (.null, (c :: cs).drop 4)
      else
        match parseNumber (c :: cs) with
        | some (n, rest) => some (.num n, rest)
        | none => none
  | fuel + 1, .items acc, s =>
    match parseJson fuel .value s with
    | none => none
    | some (v, rest) =>
      match skipWs rest with
      | 0x2C :: rest2 => parseJson fuel (.items (v :: acc)) rest2
      | 0x5D :: rest2 => some (.arr (v :: acc).reverse, rest2)
      | _ => none
  | fuel + 1, .members acc, s =>
    match skipWs s with
    | 0x22 :: ks =>
      match parseStringBody ks with
      | none => none
      | some (k, rest) =>
        match skipWs rest with
        | 0x3A :: rest2 =>
          match parseJson fuel .value rest2 with
          | none => none
          | some (v, rest3) =>
            match skipWs rest3 with
            | 0x2C :: rest4 => parseJson fuel (.members ((k, v) :: acc)) rest4
            | 0x7D :: rest4 => some (.obj ((k, v) :: acc).reverse, rest4)
            | _ => none
        | _ => none
    | _ => none

/-- The function `JSON.parse`: `none` when it throws a `SyntaxError`.  One value,
with whitespace allowed around it and nothing else after it.  The limit an engine puts
on the nesting depth is not modelled. -/
def JSONparse (s : JSString) : Option JsValue :=
  match parseJson (s.length + 1) .value s with
  | none => none
  | some (v, rest) => if skipWs rest = [] then some v else none

/-! ## Property access, truthiness and string coercion -/

/-- The parts of the JavaScript engine the handler relies on and that are left open:
`numberTruthy` is `ToBoolean` of the Number a JSON number text denotes (false for the
texts that denote zero), and `coerce` is the string that `s += v` appends for a value
`v` that is not a string, `none` when the conversion throws a `TypeError`. -/
structure JsEngine where
  numberTruthy : JSString → Bool
  coerce : JsValue → Option JSString

/-- An exception value: the handler only ever reads the `message` of an `Error`. -/
inductive Thrown where
  | syntaxError : Thrown
  | typeError : Thrown
  | error (message : JSString) : Thrown

/-- The last member with the given key: `JSON.parse` lets a later duplicate win. -/
def lookupMember (key : JSString) : List (JSString × JsValue) → Option JsValue
  | [] => none
  | (k, v) :: rest =>
    match lookupMember key rest with
    | some w => some w
    | none => if k = key then some v else none

/-- Property read `data.text` / `data.error` on a parsed value, for a key that is
neither an index nor a built-in property: `none` is a `TypeError` (reading a property
of `null`), `some none` is `undefined`. -/
def getProp (data : JsValue) (key : JSString) : Option (Option JsValue) :=
  match data with
  | .null => none
  | .obj members => some (lookupMember key members)
  | _ => some none

/-- The abstract operation `ToBoolean` on a property value (`none` is `undefined`). -/
def truthy (eng : JsEngine) : Option JsValue → Bool
  | none => false
  | some .null => false
  | some (.bool b) => b
  | some (.num n) => eng.numberTruthy n
  | some (.str s) => !s.isEmpty
  | some (.arr _) => true
  | some (.obj _) => true

/-- The string a value contributes to a concatenation or to an `Error` message. -/
def toStr (eng : JsEngine) : JsValue → Option JSString
  | .str s => some s
  | v => eng.coerce v

/-! ## Transcript and component state -/

/-- The `sender` of a message. -/
inductive Sender where
  | user : Sender
  | bot : Sender
  | system : Sender
  deriving DecidableEq, Repr

/-- One transcript entry.  The fields `isStreaming` and `isError` may be absent
(`none`). -/
structure Message where
  sender : Sender
  text : JSString
  timestamp : JSString
  isStreaming : Option Bool := none
  isError : Option Bool := none
  deriving DecidableEq, Repr

/-- The component state held by `useState`: `messages`, `input`, `isLoading`, `error`. -/
structure State where
  messages : List Message
  input : JSString
  isLoading : Bool
  error : Option JSString
  deriving DecidableEq, Repr

/-- The state of a freshly mounted component. -/
def State.initial : State :=
  { messages := [], input := [], isLoading := false, error := none }

/-- The readings of `new Date().toISOString()` one call of the handler can take: for the
user message, for the message added on acceptance, and for the error message. -/
structure Clock where
  submitted : JSString
  accepted : JSString
  failed : JSString

/-- The body of the request, before `JSON.stringify`: `{ restart: true }` or `{ prompt }`. -/
inductive Payload where
  | restart : Payload
  | prompt (prompt : JSString) : Payload
  deriving DecidableEq, Repr

/-- How the response body ends: `reader.read()` reports `done`, or it rejects with an
error that has the given message. -/
inductive StreamEnd where
  | done : StreamEnd
  | failed (message : JSString) : StreamEnd
  deriving DecidableEq, Repr

/-- The response body as the loop sees it: the decoded text of each chunk read, in
order, and how the stream ends.  A body that cannot be read at all is a stream without
chunks that ends in a failure. -/
structure Body where
  chunks : List JSString
  ending : StreamEnd
  deriving DecidableEq, Repr

/-- The outcome of `fetch`: it rejects with an error, or it resolves with a response. -/
inductive FetchResult where
  | rejected (message : JSString) : FetchResult
  | response (status : Nat) (body : Body) : FetchResult
  deriving DecidableEq, Repr

/-- A statement list either runs to its end or throws; both keep the value reached. -/
inductive Completion (ε σ : Type) where
  | normal (value : σ) : Completion ε σ
  | throw (err : ε) (value : σ) : Completion ε σ

/-! ## String constants of the handler -/

/-- The frame prefix `'data: '`. -/
def dataPrefix : JSString := utf16 "data: "

/-- Message for status 401. -/
def msgExpired : JSString := utf16 "登入已過期，請重新登入"

/-- Message for status 403. -/
def msgForbidden : JSString := utf16 "無訪問權限"

/-- Message for any other rejected status: the status in a template literal. -/
def msgServer (status : Nat) : JSString :=
  utf16 "伺服器錯誤 (" ++ decimal status ++ utf16 ")"

/-- Message thrown by the `catch` around the frame handling. -/
def msgParseFailure : JSString := utf16 "回應格式錯誤或解析失敗"

/-- Text of the system message shown after a restart. -/
def restartNotice : JSString := utf16 "對話已重啟。新的對話已開始。"

/-- Prefix of the text of an error message in the transcript. -/
def errorPrefix : JSString := utf16 "錯誤: "

/-! ## The handler -/

/-- Property `response.ok`: the status is in the range 200 to 299. -/
def responseOk (status : Nat) : Bool :=
  200 ≤ status && status ≤ 299

/-- Message of the error thrown for a response that is not `ok`. -/
def statusMessage (status : Nat) : JSString :=
  if status = 401 then msgExpired
  else if status = 403 then msgForbidden
  else msgServer status

/-- The user message appended at submission. -/
def userMessage (clock : Clock) (prompt : JSString) : Message :=
  { sender := .user, text := prompt, timestamp := clock.submitted }

/-- The only message of the transcript after a restart. -/
def restartMessage (clock : Clock) : Message :=
  { sender := .system, text := restartNotice, timestamp := clock.accepted }

/-- The empty bot message appended when a normal request is accepted. -/
def placeholder (clock : Clock) : Message :=
  { sender := .bot, text := [], isStreaming := some true, timestamp := clock.accepted }

/-- The system message that reports a failure. -/
def errorMessage (clock : Clock) (message : JSString) : Message :=
  { sender := .system, text := errorPrefix ++ message, timestamp := clock.failed,
    isError := some true }

/-- Apply `f` to the last message when it is a bot message; otherwise change nothing.
This is the shape of the two updaters that write `updated[lastIndex]`. -/
def updateLastBot (f : Message → Message) : List Message → List Message
  | [] => []
  | [m] => if m.sender = .bot then [f m] else [m]
  | m :: n :: rest => m :: updateLastBot f (n :: rest)

/-- The updater run for a text fragment: the last bot message gets the whole
accumulated reply and `isStreaming = true`. -/
def writeReply (reply : JSString) (messages : List Message) : List Message :=
  updateLastBot (fun m => { m with text := reply, isStreaming := some true }) messages

/-- The updater run when the stream is done: the last bot message gets
`isStreaming = false`. -/
def finishStreaming (messages : List Message) : List Message :=
  updateLastBot (fun m => { m with isStreaming := some false }) messages

/-- The values the stream loop carries: `assistantReply` and the transcript. -/
structure Loop where
  assistantReply : JSString
  messages : List Message
  deriving DecidableEq, Repr

/-- The statement `if (data.error) throw new Error(data.error)`. -/
def checkErrorField (eng : JsEngine) (data : JsValue) (st : Loop) : Completion Thrown Loop :=
  match getProp data (utf16 "error") with
  | none => .throw .typeError st
  | some e =>
    if truthy eng e then
      match e with
      | some v =>
        match toStr eng v with
        | some m => .throw (.error m) st
        | none => .throw .typeError st
      | none => .normal st
    else .normal st

/-- The body of the inner `try`: parse the frame, apply its `text`, then look at its
`error`. -/
def tryFrame (eng : JsEngine) (line : JSString) (st : Loop) : Completion Thrown Loop :=
  match JSONparse (replaceFirstWithEmpty dataPrefix line) with
  | none => .throw .syntaxError st
  | some data =>
    match getProp data (utf16 "text") with
    | none => .throw .typeError st
    | some t =>
      if truthy eng t then
        match t with
        | some v =>
          match toStr eng v with
          | none => .throw .typeError st
          | some fragment =>
            let reply := st.assistantReply ++ fragment
            checkErrorField eng data
              { assistantReply := reply, messages := writeReply reply st.messages }
        | none => checkErrorField eng data st
      else checkErrorField eng data st

/-- One turn of `for (const line of lines)`: a line that starts with `'data: '` runs the
inner `try`, whose `catch` throws the fixed parse-failure error whatever was caught. -/
def processLine (eng : JsEngine) (line : JSString) (st : Loop) : Completion JSString Loop :=
  if startsWith line dataPrefix then
    match tryFrame eng line st with
    | .normal st1 => .normal st1
    | .throw _ st1 => .throw msgParseFailure st1
  else .normal st

/-- The loop `for (const line of lines)`; it stops at the first throw. -/
def processLines (eng : JsEngine) : List JSString → Loop → Completion JSString Loop
  | [], st => .normal st
  | line :: rest, st =>
    match processLine eng line st with
    | .normal st1 => processLines eng rest st1
    | .throw m st1 => .throw m st1

/-- One turn of `while (true)` for a chunk that was read: decode, split, process. -/
def processChunk (eng : JsEngine) (chunk : JSString) (st : Loop) : Completion JSString Loop :=
  processLines eng (splitBlankLine chunk) st

/-- The loop `while (true)` over the chunks of the body, up to the way the body ends. -/
def readLoop (eng : JsEngine) (ending : StreamEnd) : List JSString → Loop →
    Completion JSString Loop
  | [], st =>
    match ending with
    | .done => .normal st
    | .failed m => .throw m st
  | chunk :: rest, st =>
    match processChunk eng chunk st with
    | .normal st1 => readLoop eng ending rest st1
    | .throw m st1 => .throw m st1

/-- The transcript right after the request is accepted: replaced by the restart notice,
or extended by the placeholder. -/
def accept (clock : Clock) (restart : Bool) (messages : List Message) : List Message :=
  if restart then [restartMessage clock] else messages ++ [placeholder clock]

/-- Reading the body: the stream loop from an empty `assistantReply`, then the updater
that clears `isStreaming`. -/
def consume (eng : JsEngine) (body : Body) (messages : List Message) :
    Completion JSString (List Message) :=
  match readLoop eng body.ending body.chunks { assistantReply := [], messages := messages } with
  | .normal st => .normal (finishStreaming st.messages)
  | .throw m st => .throw m st.messages

/-- The body of the outer `try`, on the transcript: `fetch`, the status check, the
acceptance and the stream. -/
def tryBody (eng : JsEngine) (clock : Clock) (restart : Bool) (result : FetchResult)
    (messages : List Message) : Completion JSString (List Message) :=
  match result with
  | .rejected m => .throw m messages
  | .response status body =>
    if !responseOk status then .throw (statusMessage status) messages
    else consume eng body (accept clock restart messages)

/-- The updater of the outer `catch`: an empty trailing bot message is removed,
otherwise an error message is appended. -/
def onFailure (clock : Clock) (message : JSString) (messages : List Message) : List Message :=
  match messages.getLast? with
  | some lastMsg =>
    if lastMsg.sender = .bot ∧ lastMsg.text.isEmpty then messages.dropLast
    else messages ++ [errorMessage clock message]
  | none => messages ++ [errorMessage clock message]

/-- The state when the request is issued: the user message is appended and the input
cleared (not for a restart), `isLoading` is set and `error` cleared. -/
def begin (clock : Clock) (restart : Bool) (prompt : JSString) (s : State) : State :=
  let s1 : State :=
    if restart then s
    else { s with messages := s.messages ++ [userMessage clock prompt], input := [] }
  { s1 with isLoading := true, error := none }

/-- The rest of the handler once `fetch` has settled: `try`, `catch` and `finally`. -/
def settle (eng : JsEngine) (clock : Clock) (restart : Bool) (result : FetchResult)
    (s : State) : State :=
  let s1 : State :=
    match tryBody eng clock restart result s.messages with
    | .normal messages => { s with messages := messages }
    | .throw m messages =>
      { s with error := some m, messages := onFailure clock m messages }
  { s1 with isLoading := false }

/-- The handler `handleSubmit(e, restart)`, run to completion on the state of the render
it was called in.  Returns the final state and the request body sent, if any. -/
def handleSubmit (eng : JsEngine) (clock : Clock) (restart : Bool) (result : FetchResult)
    (s : State) : State × Option Payload :=
  let prompt := trim s.input
  if prompt.isEmpty ∧ !restart then (s, none)
  else
    let payload := if restart then Payload.restart else Payload.prompt prompt
    (settle eng clock restart result (begin clock restart prompt s), some payload)

/-! ## Frames sent by the server -/

/-- Lower-case hexadecimal digit of a value below 16. -/
def hexDigit (d : Nat) : Nat :=
  if d < 10 then 0x30 + d else 0x61 + (d - 10)

/-- The escape `\uXXXX` of a code unit. -/
def unicodeEscape (c : Nat) : JSString :=
  [0x5C, 0x75, hexDigit (c / 4096 % 16), hexDigit (c / 256 % 16), hexDigit (c / 16 % 16),
    hexDigit (c % 16)]

/-- Is the code unit a leading (high) surrogate. -/
def isHighSurrogate (c : Nat) : Bool :=
  0xD800 ≤ c && c ≤ 0xDBFF

/-- Is the code unit a trailing (low) surrogate. -/
def isLowSurrogate (c : Nat) : Bool :=
  0xDC00 ≤ c && c ≤ 0xDFFF

/-- JSON text of one code unit inside a string literal, as `JSON.stringify` writes it:
short escapes, `\uXXXX` for the other control characters and for a surrogate that
stands alone, and the code unit itself otherwise. -/
def escapeUnit (c : Nat) : JSString :=
  if c = 0x22 then [0x5C, 0x22]
  else if c = 0x5C then [0x5C, 0x5C]
  else if c = 0x08 then [0x5C, 0x62]
  else if c = 0x09 then [0x5C, 0x74]
  else if c = 0x0A then [0x5C, 0x6E]
  else if c = 0x0C then [0x5C, 0x66]
  else if c = 0x0D then [0x5C, 0x72]
  else if c < 0x20 then unicodeEscape c
  else if isHighSurrogate c || isLowSurrogate c then unicodeEscape c
  else [c]

/-- JSON text of the code units of a string; a surrogate pair is kept as it is. -/
def quoteUnits : JSString → JSString
  | [] => []
  | [c] => escapeUnit c
  | c :: d :: rest =>
    if isHighSurrogate c ∧ isLowSurrogate d then c :: d :: quoteUnits rest
    else escapeUnit c ++ quoteUnits (d :: rest)

/-- The JSON string literal that denotes `s`. -/
def jsonString (s : JSString) : JSString :=
  0x22 :: (quoteUnits s ++ [0x22])

/-- The JSON text `{"text": t}`. -/
def textPayload (t : JSString) : JSString :=
  utf16 "\x7b\"text\": " ++ (jsonString t ++ utf16 "\x7d")

/-- The JSON text `{"error": m}`. -/
def errorPayload (m : JSString) : JSString :=
  utf16 "\x7b\"error\": " ++ (jsonString m ++ utf16 "\x7d")

/-- A server-sent event with the given payload: `data: `, the payload, a blank line. -/
def frame (payload : JSString) : JSString :=
  dataPrefix ++ payload ++ utf16 "\n\n"

/-- Number of messages with `isStreaming = true`. -/
def streamingCount (messages : List Message) : Nat :=
  messages.countP (fun m => m.isStreaming = some true)

/-- The value a completion carries. -/
def Completion.value {ε σ : Type} : Completion ε σ → σ
  | .normal v => v
  | .throw _ v => v

/-- An engine for the worked examples.  They hold no JSON number and no field that is
not a string, so its two choices play no part in them. -/
def sampleEngine : JsEngine :=
  { numberTruthy := fun _ => true, coerce := fun _ => none }

/-- Clock readings for the worked examples. -/
def sampleClock : Clock :=
  { submitted := utf16 "t0", accepted := utf16 "t1", failed := utf16 "t2" }

/-- A freshly mounted component in which the user has typed ` hi `. -/
def sampleState : State :=
  { State.initial with input := utf16 " hi " }

/-- A normal turn of the worked examples: the request is answered with status 200 and
the given body. -/
def sampleTurn (chunks : List JSString) (ending : StreamEnd) (s : State) : State :=
  (handleSubmit sampleEngine sampleClock false (.response 200 ⟨chunks, ending⟩) s).1

/-- The state of the worked examples while the request of a first turn is in flight:
the user message is in the transcript and `isLoading` is set. -/
def sampleBusy : State :=
  begin sampleClock false (utf16 "hi") sampleState

/-- A message with its timestamp blanked, to compare runs made at different times. -/
def Message.withoutTimestamp (m : Message) : Message :=
  { m with timestamp := [] }

/-- A state with the timestamps of its messages blanked. -/
def State.withoutTimestamps (s : State) : State :=
  { s with messages := s.messages.map Message.withoutTimestamp }

/-! ## The request -/

/-- The arguments of the `fetch` call: the address, the method, the `Content-Type`
header and the body text. -/
structure Request where
  url : JSString
  method : JSString
  contentType : JSString
  body : JSString
  deriving DecidableEq, Repr

/-- The call `JSON.stringify(payload)` on the two payload objects of the handler. -/
def JSONstringify : Payload → JSString
  | .restart => utf16 "\x7b\"restart\":true\x7d"
  | .prompt prompt => utf16 "\x7b\"prompt\":" ++ (jsonString prompt ++ utf16 "\x7d")

/-- The `fetch` call of `handleSubmit` in `src/web/frontend/src/App.jsx`. -/
def fetchCall (payload : Payload) : Request :=
  { url := utf16 "http://127.0.0.1:5000/generate", method := utf16 "POST",
    contentType := utf16 "application/json", body := JSONstringify payload }

/-- The requests `handleSubmit` sends: the `fetch` call for its payload, when it gets
that far.  There is one `fetch` call in the handler, outside any loop. -/
def requestsSent (eng : JsEngine) (clock : Clock) (restart : Bool) (result : FetchResult)
    (s : State) : List Request :=
  match (handleSubmit eng clock restart result s).2 with
  | some payload => [fetchCall payload]
  | none => []

/-! ## The other handlers and the buttons -/

/-- What `handleRestart` and `handleKeyPress` read of a keyboard event. -/
structure KeyEvent where
  key : JSString
  shiftKey : Bool
  deriving DecidableEq, Repr

/-- The handler `handleRestart`.  `confirmed` is the answer `window.confirm` gives if it
is asked.  Returns what `handleSubmit(null, true)` returns, or the state as it is when
the restart is not issued, and whether `window.confirm` was called. -/
def handleRestart (eng : JsEngine) (clock : Clock) (confirmed : Bool) (result : FetchResult)
    (s : State) : (State × Option Payload) × Bool :=
  if s.messages.length > 1 then
    if confirmed then (handleSubmit eng clock true result s, true)
    else ((s, none), true)
  else (handleSubmit eng clock true result s, false)

/-- The handler `handleKeyPress`: Enter without Shift submits, unless `isLoading`. -/
def handleKeyPress (eng : JsEngine) (clock : Clock) (e : KeyEvent) (result : FetchResult)
    (s : State) : State × Option Payload :=
  if e.key = utf16 "Enter" ∧ !e.shiftKey ∧ !s.isLoading then
    handleSubmit eng clock false result s
  else (s, none)

/-- A click on the restart button of the web copy, which is rendered with
`disabled={isLoading}`: a disabled button gets no click. -/
def clickRestart (eng : JsEngine) (clock : Clock) (confirmed : Bool) (result : FetchResult)
    (s : State) : State × Option Payload :=
  if s.isLoading then (s, none)
  else (handleRestart eng clock confirmed result s).1

/-- A click on the send button (`type="submit"`, `disabled={isLoading}`) of the form
whose `onSubmit` is `handleSubmit`; the same in both copies. -/
def clickSend (eng : JsEngine) (clock : Clock) (result : FetchResult) (s : State) :
    State × Option Payload :=
  if s.isLoading then (s, none)
  else handleSubmit eng clock false result s

/-! ## The deploy copy

The handlers of `src/deploy/frontend/src/App.jsx`, translated from that file on their
own.  The JavaScript built-ins, the state and the message records are shared with the
web copy. -/

namespace Deploy

/-- Message of the error thrown for a response that is not `ok`. -/
def statusMessage (status : Nat) : JSString :=
  if status = 401 then utf16 "登入已過期，請重新登入"
  else if status = 403 then utf16 "無訪問權限"
  else utf16 "伺服器錯誤 (" ++ decimal status ++ utf16 ")"

/-- The updater run for a text fragment. -/
def writeReply (reply : JSString) (messages : List Message) : List Message :=
  updateLastBot (fun m => { m with text := reply, isStreaming := some true }) messages

/-- The updater run when the stream is done. -/
def finishStreaming (messages : List Message) : List Message :=
  updateLastBot (fun m => { m with isStreaming := some false }) messages

/-- The statement `if (data.error) throw new Error(data.error)`. -/
def checkErrorField (eng : JsEngine) (data : JsValue) (st : Loop) : Completion Thrown Loop :=
  match getProp data (utf16 "error") with
  | none => .throw .typeError st
  | some e =>
    if truthy eng e then
      match e with
      | some v =>
        match toStr eng v with
        | some m => .throw (.error m) st
        | none => .throw .typeError st
      | none => .normal st
    else .normal st

/-- The body of the inner `try`. -/
def tryFrame (eng : JsEngine) (line : JSString) (st : Loop) : Completion Thrown Loop :=
  match JSONparse (replaceFirstWithEmpty (utf16 "data: ") line) with
  | none => .throw .syntaxError st
  | some data =>
    match getProp data (utf16 "text") with
    | none => .throw .typeError st
    | some t =>
      if truthy eng t then
        match t with
        | some v =>
          match toStr eng v with
          | none => .throw .typeError st
          | some fragment =>
            let reply := st.assistantReply ++ fragment
            checkErrorField eng data
              { assistantReply := reply, messages := writeReply reply st.messages }
        | none => checkErrorField eng data st
      else checkErrorField eng data st

/-- One turn of `for (const line of lines)`. -/
def processLine (eng : JsEngine) (line : JSString) (st : Loop) : Completion JSString Loop :=
  if startsWith line (utf16 "data: ") then
    match tryFrame eng line st with
    | .normal st1 => .normal st1
    | .throw _ st1 => .throw (utf16 "回應格式錯誤或解析失敗") st1
  else .normal st

/-- The loop `for (const line of lines)`. -/
def processLines (eng : JsEngine) : List JSString → Loop → Completion JSString Loop
  | [], st => .normal st
  | line :: rest, st =>
    match processLine eng line st with
    | .normal st1 => processLines eng rest st1
    | .throw m st1 => .throw m st1

/-- The loop `while (true)` over the chunks of the body. -/
def readLoop (eng : JsEngine) (ending : StreamEnd) : List JSString → Loop →
    Completion JSString Loop
  | [], st =>
    match ending with
    | .done => .normal st
    | .failed m => .throw m st
  | chunk :: rest, st =>
    match processLines eng (splitBlankLine chunk) st with
    | .normal st1 => readLoop eng ending rest st1
    | .throw m st1 => .throw m st1

/-- The body of the outer `try`, on the transcript. -/
def tryBody (eng : JsEngine) (clock : Clock) (restart : Bool) (result : FetchResult)
    (messages : List Message) : Completion JSString (List Message) :=
  match result with
  | .rejected m => .throw m messages
  | .response status body =>
    if !responseOk status then .throw (statusMessage status) messages
    else
      let accepted : List Message :=
        if restart then
          [{ sender := .system, text := utf16 "對話已重啟。新的對話已開始。",
             timestamp := clock.accepted }]
        else
          messages ++ [{ sender := .bot, text := [], isStreaming := some true,
                         timestamp := clock.accepted }]
      match readLoop eng body.ending body.chunks
          { assistantReply := [], messages := accepted } with
      | .normal st => .normal (finishStreaming st.messages)
      | .throw m st => .throw m st.messages

/-- The updater of the outer `catch`. -/
def onFailure (clock : Clock) (message : JSString) (messages : List Message) : List Message :=
  match messages.getLast? with
  | some lastMsg =>
    if lastMsg.sender = .bot ∧ lastMsg.text.isEmpty then messages.dropLast
    else
      messages ++ [{ sender := .system, text := utf16 "錯誤: " ++ message,
                     timestamp := clock.failed, isError := some true }]
  | none =>
    messages ++ [{ sender := .system, text := utf16 "錯誤: " ++ message,
                   timestamp := clock.failed, isError := some true }]

/-- The handler `handleSubmit(e, restart)` of the deploy copy. -/
def handleSubmit (eng : JsEngine) (clock : Clock) (restart : Bool) (result : FetchResult)
    (s : State) : State × Option Payload :=
  let prompt := trim s.input
  if prompt.isEmpty ∧ !restart then (s, none)
  else
    let s1 : State :=
      if restart then s
      else
        { s with
          messages := s.messages ++
            [{ sender := .user, text := prompt, timestamp := clock.submitted }],
          input := [] }
    let s2 : State := { s1 with isLoading := true, error := none }
    let payload := if restart then Payload.restart else Payload.prompt prompt
    let s3 : State :=
      match tryBody eng clock restart result s2.messages with
      | .normal messages => { s2 with messages := messages }
      | .throw m messages =>
        { s2 with error := some m, messages := onFailure clock m messages }
    ({ s3 with isLoading := false }, some payload)

/-- The `fetch` call of `handleSubmit` in the deploy copy. -/
def fetchCall (payload : Payload) : Request :=
  { url := utf16 "http://203.64.104.21:5000/generate", method := utf16 "POST",
    contentType := utf16 "application/json", body := JSONstringify payload }

/-- The handler `handleRestart` of the deploy copy. -/
def handleRestart (eng : JsEngine) (clock : Clock) (confirmed : Bool) (result : FetchResult)
    (s : State) : (State × Option Payload) × Bool :=
  if s.messages.length > 1 then
    if confirmed then (handleSubmit eng clock true result s, true)
    else ((s, none), true)
  else (handleSubmit eng clock true result s, false)

/-- The handler `handleKeyPress` of the deploy copy. -/
def handleKeyPress (eng : JsEngine) (clock : Clock) (e : KeyEvent) (result : FetchResult)
    (s : State) : State × Option Payload :=
  if e.key = utf16 "Enter" ∧ !e.shiftKey ∧ !s.isLoading then
    handleSubmit eng clock false result s
  else (s, none)

/-- A click on the restart button of the deploy copy, which is rendered without a
`disabled` attribute: the click always reaches `handleRestart`. -/
def clickRestart (eng : JsEngine) (clock : Clock) (confirmed : Bool) (result : FetchResult)
    (s : State) : State × Option Payload :=
  (handleRestart eng clock confirmed result s).1

end Deploy

/-! ## Strings: lemmas -/

theorem isPrefixOf_append_self (p s : JSString) : p.isPrefixOf (p ++ s) = true := by
  induction p with
  | nil => simp
  | cons a p ih => simp [List.isPrefixOf, ih]

theorem startsWith_append (p s : JSString) : startsWith (p ++ s) p = true :=
  isPrefixOf_append_self p s

theorem replaceFirstWithEmpty_append (p s : JSString) :
    replaceFirstWithEmpty p (p ++ s) = s := by
  cases h : p ++ s with
  | nil =>
    have hp : p = [] := (List.append_eq_nil.mp h).1
    have hs : s = [] := (List.append_eq_nil.mp h).2
    simp [replaceFirstWithEmpty, hs]
  | cons c cs =>
    have hpre : p.isPrefixOf (c :: cs) = true := by
      rw [← h]; exact isPrefixOf_append_self p s
    rw [replaceFirstWithEmpty, if_pos hpre, ← h]
    simp

/-- A text without a line feed, followed by a blank line, splits into the text and an
empty piece. -/
theorem splitBlankLine_frame (s : JSString) (h : 0x0A ∉ s) :
    splitBlankLine (s ++ [0x0A, 0x0A]) = [s, []] := by
  induction s with
  | nil => simp [splitBlankLine]
  | cons c cs ih =>
    have hc : c ≠ 0x0A := fun e => h (by simp [e])
    have hcs : 0x0A ∉ cs := fun e => h (by simp [e])
    have ih' := ih hcs
    cases cs with
    | nil =>
      simp [splitBlankLine, hc]
    | cons d ds =>
      simp only [List.cons_append] at ih' ⊢
      rw [splitBlankLine]
      simp only [hc, false_and, if_false]
      rw [ih']

/-! ## JSON strings: the parser reads back what the encoder writes -/

theorem parseStringBody_cons (c : Nat) (cs : JSString) :
    parseStringBody (c :: cs) =
      if c = 0x22 then some ([], cs)
      else if c = 0x5C then
        match cs with
        | [] => none
        | e :: es =>
          if e = 0x75 then
            match es with
            | h1 :: h2 :: h3 :: h4 :: rest =>
              match hex4 h1 h2 h3 h4 with
              | some u => consUnit u (parseStringBody rest)
              | none => none
            | _ => none
          else
            match simpleEscape e with
            | some u => consUnit u (parseStringBody es)
            | none => none
      else if c < 0x20 then none
      else consUnit c (parseStringBody cs) := by
  conv => lhs; unfold parseStringBody
  rfl

theorem hexVal_hexDigit (d : Nat) (h : d < 16) : hexVal (hexDigit d) = some d := by
  interval_cases d <;> decide

theorem hex4_unicodeEscape (c : Nat) (h : c < 65536) :
    hex4 (hexDigit (c / 4096 % 16)) (hexDigit (c / 256 % 16)) (hexDigit (c / 16 % 16))
      (hexDigit (c % 16)) = some c := by
  have h1 := hexVal_hexDigit (c / 4096 % 16) (Nat.mod_lt _ (by norm_num))
  have h2 := hexVal_hexDigit (c / 256 % 16) (Nat.mod_lt _ (by norm_num))
  have h3 := hexVal_hexDigit (c / 16 % 16) (Nat.mod_lt _ (by norm_num))
  have h4 := hexVal_hexDigit (c % 16) (Nat.mod_lt _ (by norm_num))
  simp only [hex4, h1, h2, h3, h4, Option.some.injEq]
  omega

theorem parseStringBody_unicodeEscape (c : Nat) (h : c < 65536) (s : JSString) :
    parseStringBody (unicodeEscape c ++ s) = consUnit c (parseStringBody s) := by
  simp [unicodeEscape, parseStringBody_cons 0x5C, hex4_unicodeEscape c h]

theorem parseStringBody_literal (c : Nat) (h1 : c ≠ 0x22) (h2 : c ≠ 0x5C) (h3 : ¬ c < 0x20)
    (s : JSString) : parseStringBody (c :: s) = consUnit c (parseStringBody s) := by
  rw [parseStringBody_cons]
  simp [h1, h2, h3]

theorem parseStringBody_quote (rest : JSString) :
    parseStringBody (0x22 :: rest) = some ([], rest) := by
  rw [parseStringBody_cons]; simp

theorem parseStringBody_escapeUnit (c : Nat) (s : JSString) :
    parseStringBody (escapeUnit c ++ s) = consUnit c (parseStringBody s) := by
  unfold escapeUnit
  split_ifs with h1 h2 h3 h4 h5 h6 h7 h8 h9
  · subst h1; simp [parseStringBody_cons 0x5C, simpleEscape]
  · subst h2; simp [parseStringBody_cons 0x5C, simpleEscape]
  · subst h3; simp [parseStringBody_cons 0x5C, simpleEscape]
  · subst h4; simp [parseStringBody_cons 0x5C, simpleEscape]
  · subst h5; simp [parseStringBody_cons 0x5C, simpleEscape]
  · subst h6; simp [parseStringBody_cons 0x5C, simpleEscape]
  · subst h7; simp [parseStringBody_cons 0x5C, simpleEscape]
  · exact parseStringBody_unicodeEscape c (by omega) s
  · refine parseStringBody_unicodeEscape c ?_ s
    simp [isHighSurrogate, isLowSurrogate] at h9
    omega
  · exact parseStringBody_literal c h1 h2 h8 s

theorem parseStringBody_quoteUnits (t rest : JSString) :
    parseStringBody (quoteUnits t ++ 0x22 :: rest) = some (t, rest) := by
  induction t using quoteUnits.induct with
  | case1 => simp [quoteUnits, parseStringBody_quote]
  | case2 c =>
    rw [quoteUnits, parseStringBody_escapeUnit, parseStringBody_quote]
    simp [consUnit]
  | case3 c d r h ih =>
    rw [quoteUnits, if_pos h]
    simp only [isHighSurrogate, isLowSurrogate, Bool.and_eq_true, decide_eq_true_eq] at h
    simp only [List.cons_append]
    rw [parseStringBody_literal c (by omega) (by omega) (by omega),
      parseStringBody_literal d (by omega) (by omega) (by omega), ih]
    simp [consUnit]
  | case4 c d r h ih =>
    rw [quoteUnits, if_neg h, List.append_assoc, parseStringBody_escapeUnit, ih]
    simp [consUnit]

theorem hexDigit_ne_lf (d : Nat) : hexDigit d ≠ 0x0A := by
  unfold hexDigit; split_ifs <;> omega

theorem escapeUnit_no_lf (c : Nat) : 0x0A ∉ escapeUnit c := by
  unfold escapeUnit
  split_ifs with h1 h2 h3 h4 h5 h6 h7 h8 h9
  any_goals decide
  · simp [unicodeEscape, (hexDigit_ne_lf _).symm]
  · simp [unicodeEscape, (hexDigit_ne_lf _).symm]
  · simp; omega

theorem quoteUnits_no_lf (t : JSString) : 0x0A ∉ quoteUnits t := by
  induction t using quoteUnits.induct with
  | case1 => simp [quoteUnits]
  | case2 c => rw [quoteUnits]; exact escapeUnit_no_lf c
  | case3 c d r h ih =>
    rw [quoteUnits, if_pos h]
    simp only [isHighSurrogate, isLowSurrogate, Bool.and_eq_true, decide_eq_true_eq] at h
    simp only [List.mem_cons, not_or]
    exact ⟨by omega, by omega, ih⟩
  | case4 c d r h ih =>
    rw [quoteUnits, if_neg h, List.mem_append, not_or]
    exact ⟨escapeUnit_no_lf c, ih⟩

theorem skipWs_cons_of_not (c : Nat) (cs : JSString) (h : isJsonSpace c = false) :
    skipWs (c :: cs) = c :: cs := by
  rw [skipWs]; simp [h]

theorem skipWs_space (cs : JSString) : skipWs (0x20 :: cs) = skipWs cs := by
  rw [skipWs]; simp [isJsonSpace]

/-- An object with one member whose value is a string literal parses to that member. -/
theorem parseJson_member (n : Nat) (key val rest : JSString) :
    parseJson (n + 3) .value
        (0x7B :: 0x22 :: (quoteUnits key ++ 0x22 :: 0x3A :: 0x20 :: 0x22 ::
          (quoteUnits val ++ 0x22 :: 0x7D :: rest))) =
      some (.obj [(key, .str val)], rest) := by
  have hk := parseStringBody_quoteUnits key
    (0x3A :: 0x20 :: 0x22 :: (quoteUnits val ++ 0x22 :: 0x7D :: rest))
  have hv := parseStringBody_quoteUnits val (0x7D :: rest)
  rw [parseJson, skipWs_cons_of_not _ _ (by decide)]
  simp only [skipWs_cons_of_not 0x22 _ (by decide)]
  simp only [Nat.reduceEqDiff, if_false, if_true]
  rw [parseJson, skipWs_cons_of_not _ _ (by decide)]
  simp only [hk, skipWs_cons_of_not 0x3A _ (by decide)]
  rw [parseJson, skipWs_space, skipWs_cons_of_not _ _ (by decide)]
  simp only [if_true, hv, skipWs_cons_of_not 0x7D _ (by decide), List.reverse_cons,
    List.reverse_nil, List.nil_append]

theorem quoteUnits_text : quoteUnits (utf16 "text") = utf16 "text" := by decide

theorem quoteUnits_error : quoteUnits (utf16 "error") = utf16 "error" := by decide

theorem textPayload_eq (t : JSString) :
    textPayload t = 0x7B :: 0x22 :: (quoteUnits (utf16 "text") ++ 0x22 :: 0x3A :: 0x20 :: 0x22 ::
          (quoteUnits t ++ 0x22 :: 0x7D :: [])) := by
  have h1 : utf16 "\x7b\"text\": " = [0x7B, 0x22, 0x74, 0x65, 0x78, 0x74, 0x22, 0x3A, 0x20] := by
    decide
  have h2 : utf16 "\x7d" = [0x7D] := by decide
  have h3 : utf16 "text" = [0x74, 0x65, 0x78, 0x74] := by decide
  rw [quoteUnits_text]
  simp [textPayload, jsonString, h1, h2, h3]

theorem errorPayload_eq (t : JSString) :
    errorPayload t = 0x7B :: 0x22 :: (quoteUnits (utf16 "error") ++ 0x22 :: 0x3A :: 0x20 :: 0x22 ::
          (quoteUnits t ++ 0x22 :: 0x7D :: [])) := by
  have h1 : utf16 "\x7b\"error\": " =
      [0x7B, 0x22, 0x65, 0x72, 0x72, 0x6F, 0x72, 0x22, 0x3A, 0x20] := by
    decide
  have h2 : utf16 "\x7d" = [0x7D] := by decide
  have h3 : utf16 "error" = [0x65, 0x72, 0x72, 0x6F, 0x72] := by decide
  rw [quoteUnits_error]
  simp [errorPayload, jsonString, h1, h2, h3]

/-- The function `JSON.parse` on a one-member object. -/
theorem JSONparse_member (key val : JSString) :
    JSONparse (0x7B :: 0x22 :: (quoteUnits key ++ 0x22 :: 0x3A :: 0x20 :: 0x22 ::
          (quoteUnits val ++ 0x22 :: 0x7D :: []))) = some (.obj [(key, .str val)]) := by
  unfold JSONparse
  have hlen : ∃ n, (0x7B :: 0x22 :: (quoteUnits key ++ 0x22 :: 0x3A :: 0x20 :: 0x22 ::
          (quoteUnits val ++ 0x22 :: 0x7D :: []))).length + 1 = n + 3 :=
    ⟨(quoteUnits key ++ 0x22 :: 0x3A :: 0x20 :: 0x22 ::
          (quoteUnits val ++ 0x22 :: 0x7D :: [])).length, by simp⟩
  obtain ⟨n, hn⟩ := hlen
  rw [hn, parseJson_member]
  simp [skipWs]

theorem JSONparse_textPayload (t : JSString) :
    JSONparse (textPayload t) = some (.obj [(utf16 "text", .str t)]) := by
  rw [textPayload_eq, JSONparse_member]

theorem JSONparse_errorPayload (m : JSString) :
    JSONparse (errorPayload m) = some (.obj [(utf16 "error", .str m)]) := by
  rw [errorPayload_eq, JSONparse_member]

theorem textPayload_no_lf (t : JSString) : 0x0A ∉ textPayload t := by
  rw [textPayload_eq, quoteUnits_text]
  have h := quoteUnits_no_lf t
  have h3 : utf16 "text" = [0x74, 0x65, 0x78, 0x74] := by decide
  simp [h3, h]

theorem errorPayload_no_lf (t : JSString) : 0x0A ∉ errorPayload t := by
  rw [errorPayload_eq, quoteUnits_error]
  have h := quoteUnits_no_lf t
  have h3 : utf16 "error" = [0x65, 0x72, 0x72, 0x6F, 0x72] := by decide
  simp [h3, h]

/-! ## The transcript updaters -/

theorem updateLastBot_append (f : Message → Message) (pre : List Message) (b : Message) :
    updateLastBot f (pre ++ [b]) = pre ++ [if b.sender = .bot then f b else b] := by
  induction pre with
  | nil =>
    simp only [List.nil_append, updateLastBot]
    split_ifs <;> rfl
  | cons a pre ih =>
    cases hp : pre ++ [b] with
    | nil => simp at hp
    | cons n rest =>
      rw [List.cons_append, hp, updateLastBot, ← hp, ih]
      rfl

theorem writeReply_append_bot (reply : JSString) (pre : List Message) (b : Message)
    (hb : b.sender = .bot) :
    writeReply reply (pre ++ [b]) =
      pre ++ [{ b with text := reply, isStreaming := some true }] := by
  rw [writeReply, updateLastBot_append, if_pos hb]

theorem finishStreaming_append_bot (pre : List Message) (b : Message) (hb : b.sender = .bot) :
    finishStreaming (pre ++ [b]) = pre ++ [{ b with isStreaming := some false }] := by
  rw [finishStreaming, updateLastBot_append, if_pos hb]

theorem updateLastBot_append_other (f : Message → Message) (pre : List Message) (b : Message)
    (hb : b.sender ≠ .bot) : updateLastBot f (pre ++ [b]) = pre ++ [b] := by
  rw [updateLastBot_append, if_neg hb]

theorem onFailure_append (clock : Clock) (m : JSString) (pre : List Message) (b : Message) :
    onFailure clock m (pre ++ [b]) =
      if b.sender = .bot ∧ b.text.isEmpty then pre else pre ++ [b] ++ [errorMessage clock m] := by
  simp [onFailure]

theorem onFailure_nil (clock : Clock) (m : JSString) :
    onFailure clock m [] = [errorMessage clock m] := by
  simp [onFailure]

/-! ## One frame -/

theorem dataPrefix_no_lf : 0x0A ∉ dataPrefix := by decide

theorem processLine_empty (eng : JsEngine) (st : Loop) : processLine eng [] st = .normal st := by
  simp [processLine, startsWith, dataPrefix, utf16, utf16Char]

/-- A chunk that is one frame whose payload has no line feed is handled as that one line. -/
theorem processChunk_frame (eng : JsEngine) (p : JSString) (hp : 0x0A ∉ p) (st : Loop) :
    processChunk eng (frame p) st = processLine eng (dataPrefix ++ p) st := by
  have hs : splitBlankLine (frame p) = [dataPrefix ++ p, []] := by
    have h2 : utf16 "\n\n" = [0x0A, 0x0A] := by decide
    rw [frame, h2]
    apply splitBlankLine_frame
    simp only [List.mem_append, not_or]
    exact ⟨dataPrefix_no_lf, hp⟩
  rw [processChunk, hs, processLines]
  cases h : processLine eng (dataPrefix ++ p) st with
  | normal st1 => simp [processLines, processLine_empty]
  | throw m st1 => rfl

/-- What a text frame does to the loop state: an empty fragment is skipped. -/
theorem processLine_text (eng : JsEngine) (t : JSString) (st : Loop) :
    processLine eng (dataPrefix ++ textPayload t) st =
      .normal (if t = [] then st
        else { assistantReply := st.assistantReply ++ t,
               messages := writeReply (st.assistantReply ++ t) st.messages }) := by
  have hk : utf16 "error" ≠ utf16 "text" := by decide
  have hk' : utf16 "text" ≠ utf16 "error" := by decide
  rw [processLine, startsWith_append, if_pos rfl, tryFrame, replaceFirstWithEmpty_append,
    JSONparse_textPayload]
  cases t with
  | nil => simp [getProp, lookupMember, truthy, checkErrorField, hk, hk']
  | cons c cs => simp [getProp, lookupMember, truthy, checkErrorField, hk, hk', toStr]

/-- An error frame with a non-empty message throws the fixed parse-failure message and
leaves the loop state as it was. -/
theorem processLine_error (eng : JsEngine) (m : JSString) (hm : m ≠ []) (st : Loop) :
    processLine eng (dataPrefix ++ errorPayload m) st = .throw msgParseFailure st := by
  have hk : utf16 "error" ≠ utf16 "text" := by decide
  have hk' : utf16 "text" ≠ utf16 "error" := by decide
  rw [processLine, startsWith_append, if_pos rfl, tryFrame, replaceFirstWithEmpty_append,
    JSONparse_errorPayload]
  cases m with
  | nil => exact absurd rfl hm
  | cons c cs => simp [getProp, lookupMember, truthy, checkErrorField, hk, hk', toStr]

/-! ## The stream loop on text frames -/

/-- The loop state after text fragments: the reply so far, written into the bot message. -/
theorem readLoop_textFrames (eng : JsEngine) (ending : StreamEnd) (pre : List Message)
    (b : Message) (hb : b.sender = .bot) (ts : List JSString) (acc : JSString) :
    readLoop eng ending (ts.map (fun t => frame (textPayload t)))
        { assistantReply := acc,
          messages := pre ++ [{ b with text := acc, isStreaming := some true }] } =
      readLoop eng ending []
        { assistantReply := acc ++ ts.flatten,
          messages := pre ++ [{ b with text := acc ++ ts.flatten, isStreaming := some true }] } := by
  induction ts generalizing acc with
  | nil => simp
  | cons t ts ih =>
    rw [List.map_cons, readLoop, processChunk_frame eng _ (textPayload_no_lf t), processLine_text]
    by_cases ht : t = []
    · subst ht
      simp only [if_true]
      rw [ih]
      simp
    · simp only [if_neg ht]
      rw [writeReply_append_bot (acc ++ t) pre { b with text := acc, isStreaming := some true } hb]
      have := ih (acc ++ t)
      simp only [List.flatten_cons, ← List.append_assoc]
      exact this

theorem begin_messages (clock : Clock) (prompt : JSString) (s : State) :
    (begin clock false prompt s).messages = s.messages ++ [userMessage clock prompt] := by
  simp [begin]

theorem handleSubmit_normal (eng : JsEngine) (clock : Clock) (result : FetchResult) (s : State)
    (hinput : trim s.input ≠ []) :
    handleSubmit eng clock false result s =
      (settle eng clock false result (begin clock false (trim s.input) s),
        some (Payload.prompt (trim s.input))) := by
  have h : (trim s.input).isEmpty = false := by
    cases h : trim s.input with
    | nil => exact absurd h hinput
    | cons c cs => rfl
  simp [handleSubmit, h]

/-- The whole transcript after a normal turn whose stream is a list of text frames. -/
theorem handleSubmit_textFrames (eng : JsEngine) (clock : Clock) (s : State) (status : Nat)
    (fragments : List JSString) (hinput : trim s.input ≠ []) (hok : responseOk status = true) :
    (handleSubmit eng clock false
        (.response status ⟨fragments.map (fun t => frame (textPayload t)), .done⟩) s).1.messages =
      s.messages ++ [userMessage clock (trim s.input),
        { placeholder clock with text := fragments.flatten, isStreaming := some false }] := by
  rw [handleSubmit_normal eng clock _ s hinput]
  simp only [settle, tryBody, hok, Bool.not_true, Bool.false_eq_true, if_false, consume, accept,
    begin_messages]
  have h := readLoop_textFrames eng .done (s.messages ++ [userMessage clock (trim s.input)])
    (placeholder clock) rfl fragments []
  simp only [List.nil_append] at h
  have hp : ({ placeholder clock with text := [], isStreaming := some true } : Message) =
      placeholder clock := rfl
  rw [hp] at h
  rw [h]
  simp only [readLoop]
  rw [finishStreaming_append_bot _ _ rfl]
  simp


/-! ## Invariants of the stream loop -/

theorem checkErrorField_value (eng : JsEngine) (data : JsValue) (st : Loop) :
    (checkErrorField eng data st).value = st := by
  unfold checkErrorField
  split
  · rfl
  · split
    · split
      · split <;> rfl
      · rfl
    · rfl

/-- The inner `try` leaves the loop state as it was or appends one fragment to it. -/
theorem tryFrame_value (eng : JsEngine) (line : JSString) (st : Loop) :
    (tryFrame eng line st).value = st ∨
      ∃ fragment, (tryFrame eng line st).value =
        { assistantReply := st.assistantReply ++ fragment,
          messages := writeReply (st.assistantReply ++ fragment) st.messages } := by
  unfold tryFrame
  split
  · exact Or.inl rfl
  · split
    · exact Or.inl rfl
    · split
      · split
        · split
          · exact Or.inl rfl
          · next fragment _ =>
            exact Or.inr ⟨fragment, checkErrorField_value _ _ _⟩
        · exact Or.inl (checkErrorField_value _ _ _)
      · exact Or.inl (checkErrorField_value _ _ _)

theorem processLine_value (eng : JsEngine) (line : JSString) (st : Loop) :
    (processLine eng line st).value = st ∨
      ∃ fragment, (processLine eng line st).value =
        { assistantReply := st.assistantReply ++ fragment,
          messages := writeReply (st.assistantReply ++ fragment) st.messages } := by
  unfold processLine
  split
  · have h := tryFrame_value eng line st
    cases hc : tryFrame eng line st with
    | normal st1 => rw [hc] at h; exact h
    | throw e st1 => rw [hc] at h; exact h
  · exact Or.inl rfl

/-- A property of the transcript that every `writeReply` keeps holds after one line. -/
theorem processLine_invariant (P : List Message → Prop)
    (hP : ∀ reply messages, P messages → P (writeReply reply messages))
    (eng : JsEngine) (line : JSString) (st : Loop) (h : P st.messages) :
    P (processLine eng line st).value.messages := by
  rcases processLine_value eng line st with hv | ⟨fragment, hv⟩
  · rw [hv]; exact h
  · rw [hv]; exact hP _ _ h

theorem processLines_invariant (P : List Message → Prop)
    (hP : ∀ reply messages, P messages → P (writeReply reply messages))
    (eng : JsEngine) (lines : List JSString) (st : Loop) (h : P st.messages) :
    P (processLines eng lines st).value.messages := by
  induction lines generalizing st with
  | nil => exact h
  | cons line rest ih =>
    have h1 := processLine_invariant P hP eng line st h
    rw [processLines]
    cases hc : processLine eng line st with
    | normal st1 => rw [hc] at h1; exact ih st1 h1
    | throw m st1 => rw [hc] at h1; exact h1

/-- A property of the transcript that every `writeReply` keeps holds when the loop stops,
whether it ends or throws. -/
theorem readLoop_invariant (P : List Message → Prop)
    (hP : ∀ reply messages, P messages → P (writeReply reply messages))
    (eng : JsEngine) (ending : StreamEnd) (chunks : List JSString) (st : Loop)
    (h : P st.messages) : P (readLoop eng ending chunks st).value.messages := by
  induction chunks generalizing st with
  | nil =>
    cases ending <;> (rw [readLoop]; exact h)
  | cons chunk rest ih =>
    have h1 := processLines_invariant P hP eng (splitBlankLine chunk) st h
    rw [readLoop, processChunk]
    cases hc : processLines eng (splitBlankLine chunk) st with
    | normal st1 => rw [hc] at h1; exact ih st1 h1
    | throw m st1 => rw [hc] at h1; exact h1

theorem processLine_throw (eng : JsEngine) (line : JSString) (st st1 : Loop) (m : JSString)
    (h : processLine eng line st = .throw m st1) : m = msgParseFailure := by
  unfold processLine at h
  split at h
  · split at h
    · cases h
    · cases h; rfl
  · cases h

theorem processLines_throw (eng : JsEngine) (lines : List JSString) (st st1 : Loop)
    (m : JSString) (h : processLines eng lines st = .throw m st1) : m = msgParseFailure := by
  induction lines generalizing st with
  | nil => cases h
  | cons line rest ih =>
    rw [processLines] at h
    cases hc : processLine eng line st with
    | normal st2 => rw [hc] at h; exact ih st2 h
    | throw m2 st2 =>
      rw [hc] at h
      cases h
      exact processLine_throw eng line st _ _ hc

/-- What the stream loop throws is the fixed parse-failure message or the message of the
read failure that ends the body. -/
theorem readLoop_throw (eng : JsEngine) (ending : StreamEnd) (chunks : List JSString)
    (st st1 : Loop) (m : JSString) (h : readLoop eng ending chunks st = .throw m st1) :
    m = msgParseFailure ∨ ending = .failed m := by
  induction chunks generalizing st with
  | nil =>
    cases ending with
    | done => rw [readLoop] at h; cases h
    | failed m2 => rw [readLoop] at h; cases h; exact Or.inr rfl
  | cons chunk rest ih =>
    rw [readLoop, processChunk] at h
    cases hc : processLines eng (splitBlankLine chunk) st with
    | normal st2 => rw [hc] at h; exact ih st2 h
    | throw m2 st2 =>
      rw [hc] at h
      cases h
      exact Or.inl (processLines_throw eng _ st _ _ hc)


/-! ## The handler: lemmas -/

theorem handleSubmit_restart (eng : JsEngine) (clock : Clock) (result : FetchResult) (s : State) :
    handleSubmit eng clock true result s =
      (settle eng clock true result (begin clock true (trim s.input) s), some Payload.restart) := by
  simp [handleSubmit]

theorem begin_restart_messages (clock : Clock) (prompt : JSString) (s : State) :
    (begin clock true prompt s).messages = s.messages := by
  simp [begin]

theorem begin_error (clock : Clock) (restart : Bool) (prompt : JSString) (s : State) :
    (begin clock restart prompt s).error = none := by
  simp [begin]

theorem settle_messages (eng : JsEngine) (clock : Clock) (restart : Bool) (result : FetchResult)
    (s : State) :
    (settle eng clock restart result s).messages =
      match tryBody eng clock restart result s.messages with
      | .normal messages => messages
      | .throw m messages => onFailure clock m messages := by
  unfold settle
  cases tryBody eng clock restart result s.messages <;> rfl

theorem settle_error (eng : JsEngine) (clock : Clock) (restart : Bool) (result : FetchResult)
    (s : State) :
    (settle eng clock restart result s).error =
      match tryBody eng clock restart result s.messages with
      | .normal _ => s.error
      | .throw m _ => some m := by
  unfold settle
  cases tryBody eng clock restart result s.messages <;> rfl

theorem tryBody_accepted (eng : JsEngine) (clock : Clock) (restart : Bool) (status : Nat)
    (body : Body) (messages : List Message) (hok : responseOk status = true) :
    tryBody eng clock restart (.response status body) messages =
      consume eng body (accept clock restart messages) := by
  simp [tryBody, hok]

theorem tryBody_refused (eng : JsEngine) (clock : Clock) (restart : Bool) (status : Nat)
    (body : Body) (messages : List Message) (hok : responseOk status = false) :
    tryBody eng clock restart (.response status body) messages =
      .throw (statusMessage status) messages := by
  simp [tryBody, hok]

theorem streamingCount_append (xs ys : List Message) :
    streamingCount (xs ++ ys) = streamingCount xs + streamingCount ys := by
  simp [streamingCount]

/-- While a normal turn streams, the transcript is the transcript at acceptance with its
last message, a bot message, possibly rewritten. -/
theorem readLoop_bot_tail (eng : JsEngine) (ending : StreamEnd) (chunks : List JSString)
    (pre : List Message) (b : Message) (hb : b.sender = .bot) (acc : JSString) :
    ∃ b1 : Message, b1.sender = .bot ∧
      (readLoop eng ending chunks
        { assistantReply := acc, messages := pre ++ [b] }).value.messages = pre ++ [b1] := by
  have h := readLoop_invariant (fun ms => ∃ b1 : Message, b1.sender = .bot ∧ ms = pre ++ [b1])
    (by
      rintro reply ms ⟨b1, hb1, rfl⟩
      exact ⟨{ b1 with text := reply, isStreaming := some true }, hb1,
        writeReply_append_bot reply pre b1 hb1⟩)
    eng ending chunks { assistantReply := acc, messages := pre ++ [b] } ⟨b, hb, rfl⟩
  exact h

/-- When the last message is not a bot message the loop never changes the transcript. -/
theorem readLoop_other_tail (eng : JsEngine) (ending : StreamEnd) (chunks : List JSString)
    (pre : List Message) (b : Message) (hb : b.sender ≠ .bot) (acc : JSString) :
    (readLoop eng ending chunks
      { assistantReply := acc, messages := pre ++ [b] }).value.messages = pre ++ [b] := by
  have h := readLoop_invariant (fun ms => ms = pre ++ [b])
    (by
      rintro reply ms rfl
      exact updateLastBot_append_other _ pre b hb)
    eng ending chunks { assistantReply := acc, messages := pre ++ [b] } rfl
  exact h


theorem msgServer_ne_msgParseFailure (status : Nat) : msgServer status ≠ msgParseFailure := by
  have h1 : utf16 "伺服器錯誤 (" = [0x4F3A, 0x670D, 0x5668, 0x932F, 0x8AA4, 0x20, 0x28] := by
    decide
  have h2 : msgParseFailure =
      [0x56DE, 0x61C9, 0x683C, 0x5F0F, 0x932F, 0x8AA4, 0x6216, 0x89E3, 0x6790, 0x5931, 0x6557] := by
    decide
  rw [msgServer, h1, h2]
  simp

theorem statusMessage_ne_msgParseFailure (status : Nat) :
    statusMessage status ≠ msgParseFailure := by
  unfold statusMessage
  split_ifs
  · decide
  · decide
  · exact msgServer_ne_msgParseFailure status


/-! ## Lines that are not data frames, and chunks made of whole frames -/

theorem processLine_other (eng : JsEngine) (line : JSString) (st : Loop)
    (h : startsWith line dataPrefix = false) : processLine eng line st = .normal st := by
  simp [processLine, h]

theorem processLines_other (eng : JsEngine) (lines : List JSString) (st : Loop)
    (h : ∀ line ∈ lines, startsWith line dataPrefix = false) :
    processLines eng lines st = .normal st := by
  induction lines with
  | nil => rfl
  | cons line rest ih =>
    rw [processLines, processLine_other eng line st (h line (by simp))]
    exact ih (fun l hl => h l (by simp [hl]))

/-- Chunks without a data line leave the loop state as it was. -/
theorem readLoop_skip (eng : JsEngine) (ending : StreamEnd) (pre rest : List JSString)
    (st : Loop)
    (h : ∀ chunk ∈ pre, ∀ line ∈ splitBlankLine chunk, startsWith line dataPrefix = false) :
    readLoop eng ending (pre ++ rest) st = readLoop eng ending rest st := by
  induction pre with
  | nil => rfl
  | cons chunk pre ih =>
    rw [List.cons_append, readLoop, processChunk,
      processLines_other eng _ st (h chunk (by simp))]
    exact ih (fun c hc => h c (by simp [hc]))

theorem splitBlankLine_ne_nil (s : JSString) : splitBlankLine s ≠ [] := by
  induction s using splitBlankLine.induct with
  | case1 => simp [splitBlankLine]
  | case2 c => simp [splitBlankLine]
  | case3 c d rest h ih => rw [splitBlankLine, if_pos h]; simp
  | case4 c d rest h h2 ih => exact absurd h2 ih
  | case5 c d rest h p ps h2 ih => rw [splitBlankLine, if_neg h, h2]; simp

/-- A text without a line feed, a blank line, and more text: the first piece is the text
and the other pieces are those of the rest. -/
theorem splitBlankLine_frame_append (s rest : JSString) (h : 0x0A ∉ s) :
    splitBlankLine (s ++ 0x0A :: 0x0A :: rest) = s :: splitBlankLine rest := by
  induction s with
  | nil => simp [splitBlankLine]
  | cons c cs ih =>
    have hc : c ≠ 0x0A := fun e => h (by simp [e])
    have hcs : 0x0A ∉ cs := fun e => h (by simp [e])
    have ih1 := ih hcs
    cases cs with
    | nil =>
      simp only [List.nil_append] at ih1
      rw [List.cons_append, List.nil_append, splitBlankLine, if_neg (by simp [hc]), ih1]
    | cons d ds =>
      simp only [List.cons_append] at ih1 ⊢
      rw [splitBlankLine, if_neg (by simp [hc]), ih1]

theorem processLines_append (eng : JsEngine) (xs ys : List JSString) (st : Loop) :
    processLines eng (xs ++ ys) st =
      match processLines eng xs st with
      | .normal st1 => processLines eng ys st1
      | .throw m st1 => .throw m st1 := by
  induction xs generalizing st with
  | nil => rfl
  | cons x xs ih =>
    rw [List.cons_append, processLines, processLines]
    cases processLine eng x st with
    | normal st1 => exact ih st1
    | throw m st1 => rfl

/-- The text of several whole frames, one after the other. -/
theorem splitBlankLine_frames (payloads : List JSString) (h : ∀ p ∈ payloads, 0x0A ∉ p) :
    splitBlankLine (payloads.map frame).flatten =
      payloads.map (fun p => dataPrefix ++ p) ++ [[]] := by
  induction payloads with
  | nil => simp [splitBlankLine]
  | cons p ps ih =>
    have h2 : utf16 "\n\n" = [0x0A, 0x0A] := by decide
    have hp : 0x0A ∉ dataPrefix ++ p := by
      simp only [List.mem_append, not_or]
      exact ⟨dataPrefix_no_lf, h p (by simp)⟩
    rw [List.map_cons, List.flatten_cons, frame, h2, List.append_assoc]
    simp only [List.cons_append, List.nil_append]
    rw [splitBlankLine_frame_append _ _ hp, ih (fun q hq => h q (by simp [hq]))]
    simp

/-- Reading whole frames one chunk each is processing their data lines in order. -/
theorem readLoop_frames (eng : JsEngine) (ending : StreamEnd) (payloads rest : List JSString)
    (h : ∀ p ∈ payloads, 0x0A ∉ p) (st : Loop) :
    readLoop eng ending (payloads.map frame ++ rest) st =
      match processLines eng (payloads.map (fun p => dataPrefix ++ p)) st with
      | .normal st1 => readLoop eng ending rest st1
      | .throw m st1 => .throw m st1 := by
  induction payloads generalizing st with
  | nil => rfl
  | cons p ps ih =>
    rw [List.map_cons, List.cons_append, readLoop, processChunk_frame eng p (h p (by simp)),
      List.map_cons, processLines]
    cases processLine eng (dataPrefix ++ p) st with
    | normal st1 => exact ih (fun q hq => h q (by simp [hq])) st1
    | throw m st1 => rfl

/-- Cutting the body at frame boundaries only does not change what the loop does: whole
frames grouped into chunks in any way are handled like the same frames one chunk each. -/
theorem readLoop_grouped_frames (eng : JsEngine) (ending : StreamEnd)
    (groups : List (List JSString)) (h : ∀ g ∈ groups, ∀ p ∈ g, 0x0A ∉ p) (st : Loop) :
    readLoop eng ending (groups.map (fun g => (g.map frame).flatten)) st =
      readLoop eng ending (groups.flatten.map frame) st := by
  induction groups generalizing st with
  | nil => rfl
  | cons g gs ih =>
    have hg : ∀ p ∈ g, 0x0A ∉ p := h g (by simp)
    have hgs : ∀ g1 ∈ gs, ∀ p ∈ g1, 0x0A ∉ p := fun g1 h1 => h g1 (by simp [h1])
    rw [List.map_cons, readLoop, processChunk, splitBlankLine_frames g hg, processLines_append,
      List.flatten_cons, List.map_append, readLoop_frames eng ending g _ hg]
    cases processLines eng (g.map (fun p => dataPrefix ++ p)) st with
    | normal st1 =>
      simp only [processLines, processLine_empty]
      exact ih hgs st1
    | throw m st1 => rfl

/-! ## The request body -/

/-- An object with one member whose value is a string literal, written without
whitespace, parses to that member. -/
theorem parseJson_member_compact (n : Nat) (key val rest : JSString) :
    parseJson (n + 3) .value
        (0x7B :: 0x22 :: (quoteUnits key ++ 0x22 :: 0x3A :: 0x22 ::
          (quoteUnits val ++ 0x22 :: 0x7D :: rest))) =
      some (.obj [(key, .str val)], rest) := by
  have hk := parseStringBody_quoteUnits key
    (0x3A :: 0x22 :: (quoteUnits val ++ 0x22 :: 0x7D :: rest))
  have hv := parseStringBody_quoteUnits val (0x7D :: rest)
  rw [parseJson, skipWs_cons_of_not _ _ (by decide)]
  simp only [skipWs_cons_of_not 0x22 _ (by decide)]
  simp only [Nat.reduceEqDiff, if_false, if_true]
  rw [parseJson, skipWs_cons_of_not _ _ (by decide)]
  simp only [hk, skipWs_cons_of_not 0x3A _ (by decide)]
  rw [parseJson, skipWs_cons_of_not _ _ (by decide)]
  simp only [if_true, hv, skipWs_cons_of_not 0x7D _ (by decide), List.reverse_cons,
    List.reverse_nil, List.nil_append]

theorem quoteUnits_prompt : quoteUnits (utf16 "prompt") = utf16 "prompt" := by decide

theorem JSONstringify_prompt_eq (p : JSString) :
    JSONstringify (.prompt p) =
      0x7B :: 0x22 :: (quoteUnits (utf16 "prompt") ++ 0x22 :: 0x3A :: 0x22 ::
        (quoteUnits p ++ 0x22 :: 0x7D :: [])) := by
  have h1 : utf16 "\x7b\"prompt\":" =
      [0x7B, 0x22, 0x70, 0x72, 0x6F, 0x6D, 0x70, 0x74, 0x22, 0x3A] := by decide
  have h2 : utf16 "\x7d" = [0x7D] := by decide
  have h3 : utf16 "prompt" = [0x70, 0x72, 0x6F, 0x6D, 0x70, 0x74] := by decide
  rw [quoteUnits_prompt]
  simp [JSONstringify, jsonString, h1, h2, h3]

/-- The body of a normal request reads back as the object `{ prompt }`. -/
theorem JSONparse_stringify_prompt (p : JSString) :
    JSONparse (JSONstringify (.prompt p)) = some (.obj [(utf16 "prompt", .str p)]) := by
  rw [JSONstringify_prompt_eq]
  unfold JSONparse
  have hlen : ∃ n, (0x7B :: 0x22 :: (quoteUnits (utf16 "prompt") ++ 0x22 :: 0x3A :: 0x22 ::
          (quoteUnits p ++ 0x22 :: 0x7D :: []))).length + 1 = n + 3 :=
    ⟨(quoteUnits (utf16 "prompt") ++ 0x22 :: 0x3A :: 0x22 ::
          (quoteUnits p ++ 0x22 :: 0x7D :: [])).length, by simp⟩
  obtain ⟨n, hn⟩ := hlen
  rw [hn, parseJson_member_compact]
  simp [skipWs]

/-- The body of a restart request reads back as the object `{ restart: true }`. -/
theorem JSONparse_stringify_restart :
    JSONparse (JSONstringify .restart) = some (.obj [(utf16 "restart", .bool true)]) := by
  rfl

/-! ## The method `trim` -/

theorem trim_eq_rdropWhile (s : JSString) :
    trim s = (s.dropWhile isTrimSpace).rdropWhile isTrimSpace := rfl

/-- The input is its trimmed text between two runs of whitespace. -/
theorem trim_decompose (s : JSString) :
    s = s.takeWhile isTrimSpace ++ trim s ++ (s.dropWhile isTrimSpace).rtakeWhile isTrimSpace := by
  have h1 : (s.dropWhile isTrimSpace).rdropWhile isTrimSpace ++
      (s.dropWhile isTrimSpace).rtakeWhile isTrimSpace = s.dropWhile isTrimSpace := by
    simp only [List.rdropWhile, List.rtakeWhile, ← List.reverse_append,
      List.takeWhile_append_dropWhile, List.reverse_reverse]
  rw [trim_eq_rdropWhile, List.append_assoc, h1, List.takeWhile_append_dropWhile]

theorem trim_head_not_space (s : JSString) (c : Nat) (rest : JSString)
    (h : trim s = c :: rest) : isTrimSpace c = false := by
  have hp : trim s <+: s.dropWhile isTrimSpace := by
    rw [trim_eq_rdropWhile]; exact List.rdropWhile_prefix _ _
  obtain ⟨t, ht⟩ := hp
  have hh := List.head?_dropWhile_not isTrimSpace s
  rw [← ht, h] at hh
  simpa using hh

theorem trim_last_not_space (s : JSString) (c : Nat) (h : (trim s).getLast? = some c) :
    isTrimSpace c = false := by
  have hne : (s.dropWhile isTrimSpace).rdropWhile isTrimSpace ≠ [] := by
    intro h0
    rw [trim_eq_rdropWhile, h0] at h
    simp at h
  have hl := List.rdropWhile_last_not isTrimSpace (s.dropWhile isTrimSpace) hne
  rw [trim_eq_rdropWhile, List.getLast?_eq_getLast _ hne] at h
  simp only [Option.some.injEq] at h
  rw [h] at hl
  simpa using hl

/-! ## A submission that is sent -/

/-- A submission that is not the empty-input no-op runs `begin`, sends its payload and
runs `settle`. -/
theorem handleSubmit_sent (eng : JsEngine) (clock : Clock) (restart : Bool)
    (result : FetchResult) (s : State) (hsent : trim s.input ≠ [] ∨ restart = true) :
    handleSubmit eng clock restart result s =
      (settle eng clock restart result (begin clock restart (trim s.input) s),
        some (if restart then Payload.restart else Payload.prompt (trim s.input))) := by
  cases restart with
  | true => rw [handleSubmit_restart]; rfl
  | false =>
    rcases hsent with h | h
    · rw [handleSubmit_normal eng clock _ s h]; rfl
    · cases h

theorem settle_isLoading (eng : JsEngine) (clock : Clock) (restart : Bool)
    (result : FetchResult) (s : State) :
    (settle eng clock restart result s).isLoading = false := rfl

theorem settle_input (eng : JsEngine) (clock : Clock) (restart : Bool)
    (result : FetchResult) (s : State) :
    (settle eng clock restart result s).input = s.input := by
  unfold settle
  cases tryBody eng clock restart result s.messages <;> rfl

/-- The outcomes of the `try` block of a normal turn: it ends with the transcript and one
bot message, or it throws with the transcript as it was or with one bot message added. -/
theorem tryBody_normal_turn (eng : JsEngine) (clock : Clock) (result : FetchResult)
    (messages : List Message) :
    (∃ b : Message, b.sender = .bot ∧
      tryBody eng clock false result messages = .normal (messages ++ [b])) ∨
    (∃ m, tryBody eng clock false result messages = .throw m messages) ∨
    (∃ m, ∃ b : Message, b.sender = .bot ∧
      tryBody eng clock false result messages = .throw m (messages ++ [b])) := by
  cases result with
  | rejected m => exact Or.inr (Or.inl ⟨m, rfl⟩)
  | response status body =>
    by_cases hok : responseOk status = true
    · rw [tryBody_accepted eng clock false status body messages hok]
      simp only [consume, accept, Bool.false_eq_true, if_false]
      obtain ⟨b1, hb1, hval⟩ := readLoop_bot_tail eng body.ending body.chunks messages
        (placeholder clock) rfl []
      cases hc : readLoop eng body.ending body.chunks
          { assistantReply := [], messages := messages ++ [placeholder clock] } with
      | normal st =>
        rw [hc] at hval
        simp only [Completion.value] at hval
        refine Or.inl ⟨{ b1 with isStreaming := some false }, hb1, ?_⟩
        simp only [hval, finishStreaming_append_bot _ _ hb1]
      | throw m st =>
        rw [hc] at hval
        simp only [Completion.value] at hval
        exact Or.inr (Or.inr ⟨m, b1, hb1, by simp only [hval]⟩)
    · have hok2 : responseOk status = false := by simpa using hok
      rw [tryBody_refused eng clock false status body messages hok2]
      exact Or.inr (Or.inl ⟨_, rfl⟩)

/-- After a normal turn the transcript it started from and the user message are still
there, in front. -/
theorem settle_normal_turn_messages (eng : JsEngine) (clock : Clock) (result : FetchResult)
    (prompt : JSString) (s : State) :
    ∃ tail, (settle eng clock false result (begin clock false prompt s)).messages =
      s.messages ++ [userMessage clock prompt] ++ tail := by
  rw [settle_messages, begin_messages]
  rcases tryBody_normal_turn eng clock result (s.messages ++ [userMessage clock prompt]) with
    ⟨b, _, h⟩ | ⟨m, h⟩ | ⟨m, b, _, h⟩
  · rw [h]; exact ⟨[b], rfl⟩
  · rw [h]
    simp only []
    rw [onFailure_append]
    exact ⟨[errorMessage clock m], by simp [userMessage]⟩
  · rw [h]
    simp only []
    rw [onFailure_append]
    split_ifs
    · exact ⟨[], by simp⟩
    · exact ⟨[b, errorMessage clock m], by simp⟩

/-! ## The failure updater and the restart turn -/

theorem onFailure_mem (clock : Clock) (m : JSString) (messages : List Message) (x : Message)
    (hx : x ∈ onFailure clock m messages) : x ∈ messages ∨ x = errorMessage clock m := by
  unfold onFailure at hx
  split at hx
  · split at hx
    · exact Or.inl (List.mem_of_mem_dropLast hx)
    · simpa using hx
  · simpa using hx

/-- The outcomes of the `try` block of a restart: it ends with the restart notice alone,
or it throws with the transcript as it was or with the restart notice alone. -/
theorem tryBody_restart_turn (eng : JsEngine) (clock : Clock) (result : FetchResult)
    (messages : List Message) :
    tryBody eng clock true result messages = .normal [restartMessage clock] ∨
    (∃ m, tryBody eng clock true result messages = .throw m messages) ∨
    (∃ m, tryBody eng clock true result messages = .throw m [restartMessage clock]) := by
  cases result with
  | rejected m => exact Or.inr (Or.inl ⟨m, rfl⟩)
  | response status body =>
    by_cases hok : responseOk status = true
    · rw [tryBody_accepted eng clock true status body messages hok]
      simp only [consume, accept, if_true]
      have hval := readLoop_other_tail eng body.ending body.chunks [] (restartMessage clock)
        (by simp [restartMessage]) []
      simp only [List.nil_append] at hval
      cases hc : readLoop eng body.ending body.chunks
          { assistantReply := [], messages := [restartMessage clock] } with
      | normal st =>
        rw [hc] at hval
        simp only [Completion.value] at hval
        refine Or.inl ?_
        simp only [hval]
        have := updateLastBot_append_other (fun m => { m with isStreaming := some false }) []
          (restartMessage clock) (by simp [restartMessage])
        simpa [finishStreaming] using this
      | throw m st =>
        rw [hc] at hval
        simp only [Completion.value] at hval
        exact Or.inr (Or.inr ⟨m, by simp only [hval]⟩)
    · have hok2 : responseOk status = false := by simpa using hok
      rw [tryBody_refused eng clock true status body messages hok2]
      exact Or.inr (Or.inl ⟨_, rfl⟩)

/-- After a restart every message of the transcript was there before or is a system
message. -/
theorem settle_restart_messages (eng : JsEngine) (clock : Clock) (result : FetchResult)
    (s : State) (x : Message) (hx : x ∈ (settle eng clock true result s).messages) :
    x ∈ s.messages ∨ x.sender = .system := by
  rw [settle_messages] at hx
  rcases tryBody_restart_turn eng clock result s.messages with h | ⟨m, h⟩ | ⟨m, h⟩
  · rw [h] at hx
    simp only [List.mem_singleton] at hx
    exact Or.inr (by rw [hx]; rfl)
  · rw [h] at hx
    rcases onFailure_mem clock m _ x hx with h1 | h1
    · exact Or.inl h1
    · exact Or.inr (by rw [h1]; rfl)
  · rw [h] at hx
    rcases onFailure_mem clock m _ x hx with h1 | h1
    · simp only [List.mem_singleton] at h1
      exact Or.inr (by rw [h1]; rfl)
    · exact Or.inr (by rw [h1]; rfl)

/-! ## A frame that is not valid JSON -/

theorem processLine_malformed (eng : JsEngine) (line : JSString) (st : Loop)
    (hdata : startsWith line dataPrefix = true)
    (hbad : JSONparse (replaceFirstWithEmpty dataPrefix line) = none) :
    processLine eng line st = .throw msgParseFailure st := by
  simp [processLine, hdata, tryFrame, hbad]

/-- Lines that hold a malformed data line make the loop over the lines throw. -/
theorem processLines_malformed_mem (eng : JsEngine) (lines : List JSString) (st : Loop)
    (h : ∃ line ∈ lines, startsWith line dataPrefix = true ∧
      JSONparse (replaceFirstWithEmpty dataPrefix line) = none) :
    ∃ st1, processLines eng lines st = .throw msgParseFailure st1 := by
  induction lines generalizing st with
  | nil => simp at h
  | cons l rest ih =>
    rw [processLines]
    cases hc : processLine eng l st with
    | throw m st1 =>
      exact ⟨st1, by rw [processLine_throw eng l st st1 m hc]⟩
    | normal st1 =>
      obtain ⟨line, hmem, hd, hb⟩ := h
      rcases List.mem_cons.mp hmem with he | hr
      · subst he
        rw [processLine_malformed eng line st hd hb] at hc
        cases hc
      · exact ih st1 ⟨line, hr, hd, hb⟩

/-- A body that holds a malformed data line makes the stream loop throw the fixed
parse-failure message, however the body ends. -/
theorem readLoop_malformed_mem (eng : JsEngine) (ending : StreamEnd) (chunks : List JSString)
    (st : Loop)
    (h : ∃ chunk ∈ chunks, ∃ line ∈ splitBlankLine chunk, startsWith line dataPrefix = true ∧
      JSONparse (replaceFirstWithEmpty dataPrefix line) = none) :
    ∃ st1, readLoop eng ending chunks st = .throw msgParseFailure st1 := by
  induction chunks generalizing st with
  | nil => simp at h
  | cons c rest ih =>
    rw [readLoop, processChunk]
    cases hc : processLines eng (splitBlankLine c) st with
    | throw m st1 =>
      exact ⟨st1, by rw [processLines_throw eng _ st st1 m hc]⟩
    | normal st1 =>
      obtain ⟨chunk, hmem, hline⟩ := h
      rcases List.mem_cons.mp hmem with he | hr
      · subst he
        obtain ⟨st2, h2⟩ := processLines_malformed_mem eng _ st hline
        rw [h2] at hc
        cases hc
      · exact ih st1 ⟨chunk, hr, hline⟩

/-- Chunks that are processed to the end hand their state to the chunks that follow. -/
theorem readLoop_append (eng : JsEngine) (ending : StreamEnd) (pre rest : List JSString)
    (st st1 : Loop) (h : readLoop eng .done pre st = .normal st1) :
    readLoop eng ending (pre ++ rest) st = readLoop eng ending rest st1 := by
  induction pre generalizing st with
  | nil =>
    rw [readLoop] at h
    cases h
    rfl
  | cons c pre ih =>
    rw [readLoop] at h
    rw [List.cons_append, readLoop]
    cases hc : processChunk eng c st with
    | normal st2 =>
      rw [hc] at h
      exact ih st2 h
    | throw m st2 =>
      rw [hc] at h
      cases h

/-- The loop stops at the first malformed data line: the state is the one the lines
before it left, whatever comes after. -/
theorem readLoop_malformed_at (eng : JsEngine) (ending : StreamEnd)
    (pre post : List JSString) (chunk : JSString) (before after : List JSString)
    (bad : JSString) (st st1 st2 : Loop)
    (hpre : readLoop eng .done pre st = .normal st1)
    (hsplit : splitBlankLine chunk = before ++ bad :: after)
    (hbefore : processLines eng before st1 = .normal st2)
    (hdata : startsWith bad dataPrefix = true)
    (hbad : JSONparse (replaceFirstWithEmpty dataPrefix bad) = none) :
    readLoop eng ending (pre ++ chunk :: post) st = .throw msgParseFailure st2 := by
  rw [readLoop_append eng ending pre _ st st1 hpre, readLoop, processChunk, hsplit,
    processLines_append, hbefore]
  simp only []
  rw [processLines, processLine_malformed eng bad st2 hdata hbad]

/-! ## Only data lines are processed -/

theorem dataPrefix_length : dataPrefix.length = 6 := by decide

/-- For a line that starts with `data: `, removing the first occurrence of `data: ` is
removing the first six code units. -/
theorem replaceFirstWithEmpty_dataPrefix (line : JSString)
    (h : startsWith line dataPrefix = true) :
    replaceFirstWithEmpty dataPrefix line = line.drop 6 ∧ line = dataPrefix ++ line.drop 6 := by
  have hp : dataPrefix <+: line := List.isPrefixOf_iff_prefix.mp h
  obtain ⟨t, ht⟩ := hp
  subst ht
  rw [replaceFirstWithEmpty_append, ← dataPrefix_length, List.drop_left]
  exact ⟨rfl, rfl⟩

/-- Processing lines is processing the data lines among them. -/
theorem processLines_filter (eng : JsEngine) (lines : List JSString) (st : Loop) :
    processLines eng lines st =
      processLines eng (lines.filter (fun line => startsWith line dataPrefix)) st := by
  induction lines generalizing st with
  | nil => rfl
  | cons l rest ih =>
    by_cases h : startsWith l dataPrefix = true
    · simp only [List.filter_cons, h, if_true]
      rw [processLines, processLines]
      cases processLine eng l st with
      | normal st1 => exact ih st1
      | throw m st1 => rfl
    · have h2 : startsWith l dataPrefix = false := by simpa using h
      simp only [List.filter_cons, h2, Bool.false_eq_true, if_false]
      rw [processLines, processLine_other eng l st h2]
      exact ih st

/-! ## The outcomes of a turn, exactly -/

/-- While a normal turn streams, the last message is the placeholder with some text. -/
theorem readLoop_placeholder_tail (eng : JsEngine) (clock : Clock) (ending : StreamEnd)
    (chunks : List JSString) (pre : List Message) :
    ∃ reply : JSString,
      (readLoop eng ending chunks
        { assistantReply := [], messages := pre ++ [placeholder clock] }).value.messages =
        pre ++ [{ placeholder clock with text := reply }] := by
  have h := readLoop_invariant
    (fun ms => ∃ reply : JSString, ms = pre ++ [{ placeholder clock with text := reply }])
    (by
      rintro reply ms ⟨r, rfl⟩
      exact ⟨reply, writeReply_append_bot reply pre { placeholder clock with text := r } rfl⟩)
    eng ending chunks { assistantReply := [], messages := pre ++ [placeholder clock] }
    ⟨[], rfl⟩
  exact h

/-- The outcomes of the `try` block of a normal turn, with the bot message spelled out:
the placeholder with the reply as text. -/
theorem tryBody_normal_turn_exact (eng : JsEngine) (clock : Clock) (result : FetchResult)
    (messages : List Message) :
    (∃ reply, tryBody eng clock false result messages =
      .normal (messages ++
        [{ placeholder clock with text := reply, isStreaming := some false }])) ∨
    ((∃ m, result = .rejected m ∧
        tryBody eng clock false result messages = .throw m messages) ∨
      (∃ status body, result = .response status body ∧ responseOk status = false ∧
        tryBody eng clock false result messages = .throw (statusMessage status) messages)) ∨
    (∃ m reply, (∃ status body, result = .response status body ∧ responseOk status = true) ∧
      tryBody eng clock false result messages =
        .throw m (messages ++ [{ placeholder clock with text := reply }])) := by
  cases result with
  | rejected m => exact Or.inr (Or.inl (Or.inl ⟨m, rfl, rfl⟩))
  | response status body =>
    by_cases hok : responseOk status = true
    · rw [tryBody_accepted eng clock false status body messages hok]
      simp only [consume, accept, Bool.false_eq_true, if_false]
      obtain ⟨reply, hval⟩ := readLoop_placeholder_tail eng clock body.ending body.chunks
        messages
      cases hc : readLoop eng body.ending body.chunks
          { assistantReply := [], messages := messages ++ [placeholder clock] } with
      | normal st =>
        rw [hc] at hval
        simp only [Completion.value] at hval
        refine Or.inl ⟨reply, ?_⟩
        simp only [hval]
        rw [finishStreaming_append_bot _ _ rfl]
      | throw m st =>
        rw [hc] at hval
        simp only [Completion.value] at hval
        exact Or.inr (Or.inr ⟨m, reply, ⟨status, body, rfl, hok⟩, by simp only [hval]⟩)
    · have hok2 : responseOk status = false := by simpa using hok
      exact Or.inr (Or.inl (Or.inr ⟨status, body, rfl, hok2,
        tryBody_refused eng clock false status body messages hok2⟩))

/-- A data line whose payload is not valid JSON, or holds a truthy `error` and no truthy
`text`, throws the fixed parse-failure message and leaves the loop state as it was. -/
theorem processLine_failing (eng : JsEngine) (p : JSString) (st : Loop)
    (hfail : JSONparse p = none ∨
      ∃ data t e, JSONparse p = some data ∧
        getProp data (utf16 "text") = some t ∧ truthy eng t = false ∧
        getProp data (utf16 "error") = some e ∧ truthy eng e = true) :
    processLine eng (dataPrefix ++ p) st = .throw msgParseFailure st := by
  rcases hfail with h | ⟨data, t, e, hp, ht, htf, he, hef⟩
  · exact processLine_malformed eng _ st (startsWith_append _ _)
      (by rw [replaceFirstWithEmpty_append]; exact h)
  · rw [processLine, startsWith_append, if_pos rfl, tryFrame, replaceFirstWithEmpty_append, hp]
    simp only [ht, htf, Bool.false_eq_true, if_false, checkErrorField, he, hef, if_true]
    cases e with
    | none => simp [truthy] at hef
    | some v =>
      simp only []
      cases toStr eng v <;> rfl

/-- Text frames are always processed to the end. -/
theorem readLoop_textFrames_normal (eng : JsEngine) (ts : List JSString) (st : Loop) :
    ∃ st1, readLoop eng .done (ts.map (fun t => frame (textPayload t))) st = .normal st1 := by
  induction ts generalizing st with
  | nil => exact ⟨st, rfl⟩
  | cons t ts ih =>
    rw [List.map_cons, readLoop, processChunk_frame eng _ (textPayload_no_lf t),
      processLine_text]
    exact ih _

/-- Text frames and then a failing frame: the loop throws the fixed message with the
state the text frames left, whatever the failing frame holds and whatever follows. -/
theorem readLoop_textFrames_then_failing (eng : JsEngine) (ending : StreamEnd)
    (ts : List JSString) (p : JSString) (post : List JSString) (st : Loop)
    (hlf : 0x0A ∉ p)
    (hfail : JSONparse p = none ∨
      ∃ data t e, JSONparse p = some data ∧
        getProp data (utf16 "text") = some t ∧ truthy eng t = false ∧
        getProp data (utf16 "error") = some e ∧ truthy eng e = true) :
    readLoop eng ending (ts.map (fun t => frame (textPayload t)) ++ frame p :: post) st =
      .throw msgParseFailure
        (readLoop eng .done (ts.map (fun t => frame (textPayload t))) st).value := by
  obtain ⟨st1, h1⟩ := readLoop_textFrames_normal eng ts st
  rw [readLoop_append eng ending _ _ st st1 h1, h1, readLoop, processChunk_frame eng p hlf,
    processLine_failing eng p st1 hfail]
  rfl

/-- The final state of a turn whose stream is text frames and then a failing frame: it
holds nothing of the failing frame, of what follows it, or of the status. -/
theorem handleSubmit_textFrames_then_failing (eng : JsEngine) (clock : Clock) (restart : Bool)
    (s : State) (status : Nat) (ts : List JSString) (p : JSString) (post : List JSString)
    (ending : StreamEnd) (hsent : trim s.input ≠ [] ∨ restart = true)
    (hok : responseOk status = true) (hlf : 0x0A ∉ p)
    (hfail : JSONparse p = none ∨
      ∃ data t e, JSONparse p = some data ∧
        getProp data (utf16 "text") = some t ∧ truthy eng t = false ∧
        getProp data (utf16 "error") = some e ∧ truthy eng e = true) :
    (handleSubmit eng clock restart
      (.response status ⟨ts.map (fun t => frame (textPayload t)) ++ frame p :: post, ending⟩)
      s).1 =
      if restart then
        { messages := [restartMessage clock, errorMessage clock msgParseFailure],
          input := s.input, isLoading := false, error := some msgParseFailure }
      else
        { messages := s.messages ++
            (if ts.flatten = [] then [userMessage clock (trim s.input)]
             else [userMessage clock (trim s.input),
               { placeholder clock with text := ts.flatten },
               errorMessage clock msgParseFailure]),
          input := [], isLoading := false, error := some msgParseFailure } := by
  rw [handleSubmit_sent eng clock restart _ s hsent]
  simp only [settle, tryBody_accepted eng clock restart status _ _ hok, consume]
  rw [readLoop_textFrames_then_failing eng ending ts p post _ hlf hfail]
  cases restart with
  | true =>
    have hval := readLoop_other_tail eng .done (ts.map (fun t => frame (textPayload t))) []
      (restartMessage clock) (by simp [restartMessage]) []
    simp only [List.nil_append] at hval
    simp only [accept, if_true, hval]
    have hf := onFailure_append clock msgParseFailure [] (restartMessage clock)
    simp only [List.nil_append] at hf
    rw [hf]
    simp [begin, restartMessage]
  | false =>
    have h := readLoop_textFrames eng .done (s.messages ++ [userMessage clock (trim s.input)])
      (placeholder clock) rfl ts []
    simp only [List.nil_append] at h
    have hp : ({ placeholder clock with text := [], isStreaming := some true } : Message) =
        placeholder clock := rfl
    rw [hp] at h
    simp only [accept, begin_messages, Bool.false_eq_true, if_false, h, readLoop,
      Completion.value]
    rw [onFailure_append]
    by_cases hts : ts.flatten = []
    · simp [hts, begin, placeholder]
    · have hne : ¬ (ts.flatten.isEmpty = true) := by simpa [List.isEmpty_iff] using hts
      simp [hts, hne, begin, placeholder]

/-- Reading the body of an accepted restart: the transcript stays the restart notice. -/
theorem consume_restart (eng : JsEngine) (clock : Clock) (body : Body) :
    consume eng body [restartMessage clock] = .normal [restartMessage clock] ∨
    ∃ m, consume eng body [restartMessage clock] = .throw m [restartMessage clock] := by
  simp only [consume]
  have hval := readLoop_other_tail eng body.ending body.chunks [] (restartMessage clock)
    (by simp [restartMessage]) []
  simp only [List.nil_append] at hval
  cases hc : readLoop eng body.ending body.chunks
      { assistantReply := [], messages := [restartMessage clock] } with
  | normal st =>
    rw [hc] at hval
    simp only [Completion.value] at hval
    refine Or.inl ?_
    simp only [hval]
    have := updateLastBot_append_other (fun m => { m with isStreaming := some false }) []
      (restartMessage clock) (by simp [restartMessage])
    simpa [finishStreaming] using this
  | throw m st =>
    rw [hc] at hval
    simp only [Completion.value] at hval
    exact Or.inr ⟨m, by simp only [hval]⟩

/-- On a transcript that does not end with an empty bot message the failure updater
appends the error message. -/
theorem onFailure_of_not_empty_bot (clock : Clock) (m : JSString) (messages : List Message)
    (h : ∀ pre b, messages = pre ++ [b] → ¬ (b.sender = .bot ∧ b.text = [])) :
    onFailure clock m messages = messages ++ [errorMessage clock m] := by
  rcases List.eq_nil_or_concat messages with hnil | ⟨pre, b, hr⟩
  · rw [hnil, onFailure_nil]
    rfl
  · rw [List.concat_eq_append] at hr
    have hb := h pre b hr
    rw [hr, onFailure_append]
    have hb2 : ¬ (b.sender = .bot ∧ b.text.isEmpty = true) := by
      simpa [List.isEmpty_iff] using hb
    rw [if_neg hb2]

/-! ## The deploy copy: the same handlers -/

namespace Deploy

theorem statusMessage_eq (status : Nat) :
    Deploy.statusMessage status = ChatApp.statusMessage status := rfl

theorem checkErrorField_eq (eng : JsEngine) (data : JsValue) (st : Loop) :
    Deploy.checkErrorField eng data st = ChatApp.checkErrorField eng data st := rfl

theorem tryFrame_eq (eng : JsEngine) (line : JSString) (st : Loop) :
    Deploy.tryFrame eng line st = ChatApp.tryFrame eng line st := rfl

theorem processLine_eq (eng : JsEngine) (line : JSString) (st : Loop) :
    Deploy.processLine eng line st = ChatApp.processLine eng line st := rfl

theorem processLines_eq (eng : JsEngine) (lines : List JSString) (st : Loop) :
    Deploy.processLines eng lines st = ChatApp.processLines eng lines st := by
  induction lines generalizing st with
  | nil => rfl
  | cons line rest ih =>
    rw [Deploy.processLines, ChatApp.processLines, processLine_eq]
    cases ChatApp.processLine eng line st with
    | normal st1 => exact ih st1
    | throw m st1 => rfl

theorem readLoop_eq (eng : JsEngine) (ending : StreamEnd) (chunks : List JSString) (st : Loop) :
    Deploy.readLoop eng ending chunks st = ChatApp.readLoop eng ending chunks st := by
  induction chunks generalizing st with
  | nil => cases ending <;> rfl
  | cons chunk rest ih =>
    rw [Deploy.readLoop, ChatApp.readLoop, ChatApp.processChunk, processLines_eq]
    cases ChatApp.processLines eng (splitBlankLine chunk) st with
    | normal st1 => exact ih st1
    | throw m st1 => rfl

theorem tryBody_eq (eng : JsEngine) (clock : Clock) (restart : Bool) (result : FetchResult)
    (messages : List Message) :
    Deploy.tryBody eng clock restart result messages =
      ChatApp.tryBody eng clock restart result messages := by
  cases result with
  | rejected m => rfl
  | response status body =>
    simp only [Deploy.tryBody, ChatApp.tryBody, readLoop_eq, statusMessage_eq, consume, accept]
    rfl

theorem onFailure_eq (clock : Clock) (message : JSString) (messages : List Message) :
    Deploy.onFailure clock message messages = ChatApp.onFailure clock message messages := rfl

theorem handleSubmit_eq (eng : JsEngine) (clock : Clock) (restart : Bool)
    (result : FetchResult) (s : State) :
    Deploy.handleSubmit eng clock restart result s =
      ChatApp.handleSubmit eng clock restart result s := by
  simp only [Deploy.handleSubmit, ChatApp.handleSubmit, tryBody_eq, onFailure_eq, settle, begin]
  rfl

theorem handleRestart_eq (eng : JsEngine) (clock : Clock) (confirmed : Bool)
    (result : FetchResult) (s : State) :
    Deploy.handleRestart eng clock confirmed result s =
      ChatApp.handleRestart eng clock confirmed result s := by
  simp only [Deploy.handleRestart, ChatApp.handleRestart, handleSubmit_eq]

theorem handleKeyPress_eq (eng : JsEngine) (clock : Clock) (e : KeyEvent)
    (result : FetchResult) (s : State) :
    Deploy.handleKeyPress eng clock e result s =
      ChatApp.handleKeyPress eng clock e result s := by
  simp only [Deploy.handleKeyPress, ChatApp.handleKeyPress, handleSubmit_eq]

end Deploy

/-! ## The busy flag at the buttons and keys -/

/-- While `isLoading` is true the send button, the Enter key and, in the web copy, the
restart button do nothing. -/
theorem busy_events_noop (eng : JsEngine) (clock : Clock) (confirmed : Bool) (e : KeyEvent)
    (result : FetchResult) (s : State) (h : s.isLoading = true) :
    clickSend eng clock result s = (s, none) ∧
    clickRestart eng clock confirmed result s = (s, none) ∧
    handleKeyPress eng clock e result s = (s, none) ∧
    Deploy.handleKeyPress eng clock e result s = (s, none) := by
  simp [clickSend, clickRestart, handleKeyPress, Deploy.handleKeyPress, h]

set_option maxRecDepth 100000

/-! ## The claims -/

/-- C1. For every list of text fragments: when a normal submission is accepted and the
stream delivers one chunk per frame `data: {"text": t}` plus a blank line, in order, and
then ends, the transcript ends with the bot message whose text is the concatenation of the
fragments in arrival order. -/
theorem C1_fragments_concatenate_in_order (eng : JsEngine) (clock : Clock) (s : State)
    (status : Nat) (fragments : List JSString) (hinput : trim s.input ≠ [])
    (hok : responseOk status = true) :
    ((handleSubmit eng clock false
        (.response status ⟨fragments.map (fun t => frame (textPayload t)), .done⟩)
        s).1.messages.getLast?).map (fun m => (m.sender, m.text)) =
      some (Sender.bot, fragments.flatten) := by
  rw [handleSubmit_textFrames eng clock s status fragments hinput hok]
  simp [placeholder]

/-- C1, worked example: the frames for `Hel` and `lo` leave `Hello`. -/
theorem C1_fragments_concatenate_in_order_witness :
    trim sampleState.input ≠ [] ∧ responseOk 200 = true ∧
    ((handleSubmit sampleEngine sampleClock false
        (.response 200
          ⟨[utf16 "data: \x7b\"text\": \"Hel\"\x7d\n\n", utf16 "data: \x7b\"text\": \"lo\"\x7d\n\n"],
            .done⟩)
        sampleState).1.messages.getLast?).map (fun m => (m.sender, m.text)) =
      some (Sender.bot, utf16 "Hello") :=
  ⟨by decide, by decide,
    C1_fragments_concatenate_in_order sampleEngine sampleClock sampleState 200
      [utf16 "Hel", utf16 "lo"] (by decide) (by decide)⟩

/-- C2, the code at the failing input: the result of the stream loop depends on how the
body is cut into chunks.  The same text, `data: {"text":"Hel"}`, a blank line,
`data: {"text":"lo"}`, a blank line, gives `Hello` in one chunk; cut inside the second
frame it gives `Hel` and a failure; cut inside the first blank line it gives `Hel` and no
failure, the second frame being skipped. -/
theorem C2_result_depends_on_chunking :
    [utf16 "data: \x7b\"text\":\"Hel\"\x7d\n\ndata: \x7b\"text\":\"lo\"\x7d\n\n"].flatten =
      [utf16 "data: \x7b\"text\":\"Hel\"\x7d\n\ndata: \x7b\"te",
        utf16 "xt\":\"lo\"\x7d\n\n"].flatten ∧
    [utf16 "data: \x7b\"text\":\"Hel\"\x7d\n\ndata: \x7b\"text\":\"lo\"\x7d\n\n"].flatten =
      [utf16 "data: \x7b\"text\":\"Hel\"\x7d\n",
        utf16 "\ndata: \x7b\"text\":\"lo\"\x7d\n\n"].flatten ∧
    sampleTurn [utf16 "data: \x7b\"text\":\"Hel\"\x7d\n\ndata: \x7b\"text\":\"lo\"\x7d\n\n"]
        .done sampleState =
      { messages := [userMessage sampleClock (utf16 "hi"),
          { placeholder sampleClock with text := utf16 "Hello", isStreaming := some false }],
        input := [], isLoading := false, error := none } ∧
    sampleTurn [utf16 "data: \x7b\"text\":\"Hel\"\x7d\n\ndata: \x7b\"te",
        utf16 "xt\":\"lo\"\x7d\n\n"] .done sampleState =
      { messages := [userMessage sampleClock (utf16 "hi"),
          { placeholder sampleClock with text := utf16 "Hel" },
          errorMessage sampleClock msgParseFailure],
        input := [], isLoading := false, error := some msgParseFailure } ∧
    sampleTurn [utf16 "data: \x7b\"text\":\"Hel\"\x7d\n",
        utf16 "\ndata: \x7b\"text\":\"lo\"\x7d\n\n"] .done sampleState =
      { messages := [userMessage sampleClock (utf16 "hi"),
          { placeholder sampleClock with text := utf16 "Hel", isStreaming := some false }],
        input := [], isLoading := false, error := none } := by
  decide

/-- C3, as the claim states it, fails: after the single frame `data: {"error":"boom"}`
the transcript is the user message alone, and holds no system message. -/
theorem C3_no_system_message_after_early_error :
    (sampleTurn [utf16 "data: \x7b\"error\":\"boom\"\x7d\n\n"] .done sampleState).messages =
      [userMessage sampleClock (utf16 "hi")] ∧
    ¬ ∃ m ∈ (sampleTurn [utf16 "data: \x7b\"error\":\"boom\"\x7d\n\n"] .done
        sampleState).messages, m.sender = Sender.system := by
  decide

/-- C3, amended. For every transcript and non-blank prompt: if the request is accepted and
the first data frame of the stream is `data: {"error": m}` with `m` not empty (the chunks
before it hold no data line), then after the handler completes the bot placeholder is gone
and nothing has been appended in its place: the transcript is the prior transcript
followed by the user message. -/
theorem C3_early_error_removes_placeholder (eng : JsEngine) (clock : Clock) (s : State)
    (status : Nat) (m : JSString) (pre rest : List JSString) (ending : StreamEnd)
    (hinput : trim s.input ≠ []) (hok : responseOk status = true) (hm : m ≠ [])
    (hpre : ∀ chunk ∈ pre, ∀ line ∈ splitBlankLine chunk, startsWith line dataPrefix = false) :
    (handleSubmit eng clock false
        (.response status ⟨pre ++ frame (errorPayload m) :: rest, ending⟩) s).1.messages =
      s.messages ++ [userMessage clock (trim s.input)] := by
  rw [handleSubmit_normal eng clock _ s hinput, settle_messages,
    tryBody_accepted eng clock false status _ _ hok]
  simp only [consume, accept, begin_messages, Bool.false_eq_true, if_false]
  rw [readLoop_skip eng ending pre _ _ hpre, readLoop,
    processChunk_frame eng _ (errorPayload_no_lf m), processLine_error eng m hm]
  simp only []
  rw [onFailure_append]
  simp [placeholder]

/-- C3, amended, worked example: a comment line, then the error frame with `boom`. -/
theorem C3_early_error_removes_placeholder_witness :
    trim sampleState.input ≠ [] ∧ responseOk 200 = true ∧ utf16 "boom" ≠ [] ∧
    (∀ chunk ∈ [utf16 ": ping\n\n"], ∀ line ∈ splitBlankLine chunk,
      startsWith line dataPrefix = false) ∧
    (handleSubmit sampleEngine sampleClock false
        (.response 200
          ⟨[utf16 ": ping\n\n", utf16 "data: \x7b\"error\": \"boom\"\x7d\n\n"], .done⟩)
        sampleState).1.messages = [userMessage sampleClock (utf16 "hi")] :=
  ⟨by decide, by decide, by decide, by decide,
    C3_early_error_removes_placeholder sampleEngine sampleClock sampleState 200 (utf16 "boom")
      [utf16 ": ping\n\n"] [] .done (by decide) (by decide) (by decide) (by decide)⟩

/-- C4, the code at the failing input: the message of an error frame is not what the
handler fails with.  After the frames
`data: {"text":"Hel"}` and `data: {"error":"boom"}` the stored error and the text of the
system message carry the fixed parse-failure message, not `boom`. -/
theorem C4_error_field_message_is_replaced :
    (sampleTurn [utf16 "data: \x7b\"text\":\"Hel\"\x7d\n\n",
        utf16 "data: \x7b\"error\":\"boom\"\x7d\n\n"] .done sampleState).error =
      some (utf16 "回應格式錯誤或解析失敗") ∧
    ((sampleTurn [utf16 "data: \x7b\"text\":\"Hel\"\x7d\n\n",
        utf16 "data: \x7b\"error\":\"boom\"\x7d\n\n"] .done sampleState).messages.getLast?).map
        (fun m => m.text) = some (utf16 "錯誤: 回應格式錯誤或解析失敗") ∧
    utf16 "回應格式錯誤或解析失敗" ≠ utf16 "boom" := by
  decide

/-- C5, the code at the failing input: a stream that fails after a text fragment leaves
the bot message with `isStreaming = true`.  The partial text `Hel` is kept and one system
error message follows, but the flag is not cleared, for a malformed frame and for a read
failure alike. -/
theorem C5_partial_reply_keeps_streaming_flag :
    sampleTurn [utf16 "data: \x7b\"text\":\"Hel\"\x7d\n\n", utf16 "data: \x7boops\n\n"] .done
        sampleState =
      { messages := [userMessage sampleClock (utf16 "hi"),
          { sender := .bot, text := utf16 "Hel", timestamp := sampleClock.accepted,
            isStreaming := some true },
          errorMessage sampleClock msgParseFailure],
        input := [], isLoading := false, error := some msgParseFailure } ∧
    sampleTurn [utf16 "data: \x7b\"text\":\"Hel\"\x7d\n\n"] (.failed (utf16 "network error"))
        sampleState =
      { messages := [userMessage sampleClock (utf16 "hi"),
          { sender := .bot, text := utf16 "Hel", timestamp := sampleClock.accepted,
            isStreaming := some true },
          errorMessage sampleClock (utf16 "network error")],
        input := [], isLoading := false, error := some (utf16 "network error") } := by
  decide

/-- C6, the code at the failing input: two messages can have `isStreaming = true`, and a
message that has it need not be the last one.  After a turn whose stream fails behind a
text fragment the flagged bot message is followed by the error message, and a second such
turn leaves two flagged messages. -/
theorem C6_two_streaming_messages :
    streamingCount (sampleTurn [utf16 "data: \x7b\"text\":\"Hel\"\x7d\n\n",
        utf16 "data: \x7b\"error\":\"boom\"\x7d\n\n"] .done sampleState).messages = 1 ∧
    ((sampleTurn [utf16 "data: \x7b\"text\":\"Hel\"\x7d\n\n",
        utf16 "data: \x7b\"error\":\"boom\"\x7d\n\n"] .done sampleState).messages.getLast?).map
        (fun m => (m.sender, m.isStreaming)) = some (Sender.system, none) ∧
    streamingCount (sampleTurn [utf16 "data: \x7b\"text\":\"Hel\"\x7d\n\n",
        utf16 "data: \x7b\"error\":\"boom\"\x7d\n\n"] .done
      { sampleTurn [utf16 "data: \x7b\"text\":\"Hel\"\x7d\n\n",
          utf16 "data: \x7b\"error\":\"boom\"\x7d\n\n"] .done sampleState with
        input := utf16 "again" }).messages = 2 := by
  decide

/-- C7. Starting from a transcript without a streaming message: right after a normal
submission is accepted exactly one message has `isStreaming = true`, and it is the bot
placeholder, last in the transcript and with empty text; and when the stream then ends
without a failure no message has `isStreaming = true`. -/
theorem C7_streaming_flag_lifecycle (eng : JsEngine) (clock : Clock) (s : State)
    (hinput : trim s.input ≠ []) (hclean : streamingCount s.messages = 0) :
    (streamingCount (accept clock false (begin clock false (trim s.input) s).messages) = 1 ∧
      (accept clock false (begin clock false (trim s.input) s).messages).getLast? =
        some (placeholder clock) ∧
      (placeholder clock).sender = .bot ∧ (placeholder clock).text = [] ∧
      (placeholder clock).isStreaming = some true) ∧
    ∀ (status : Nat) (body : Body), responseOk status = true →
      (handleSubmit eng clock false (.response status body) s).1.error = none →
      streamingCount (handleSubmit eng clock false (.response status body) s).1.messages = 0 := by
  have hpre : streamingCount (s.messages ++ [userMessage clock (trim s.input)]) = 0 := by
    rw [streamingCount_append, hclean]
    simp [streamingCount, userMessage]
  refine ⟨⟨?_, ?_, rfl, rfl, rfl⟩, ?_⟩
  · simp only [accept, begin_messages, Bool.false_eq_true, if_false]
    rw [streamingCount_append, hpre]
    simp [streamingCount, placeholder]
  · simp [accept, begin_messages]
  · intro status body hok herr
    rw [handleSubmit_normal eng clock _ s hinput] at herr ⊢
    rw [settle_error, tryBody_accepted eng clock false status _ _ hok] at herr
    rw [settle_messages, tryBody_accepted eng clock false status _ _ hok]
    simp only [consume, accept, begin_messages, Bool.false_eq_true, if_false] at herr ⊢
    obtain ⟨b1, hb1, hval⟩ := readLoop_bot_tail eng body.ending body.chunks
      (s.messages ++ [userMessage clock (trim s.input)]) (placeholder clock) rfl []
    cases hc : readLoop eng body.ending body.chunks
        { assistantReply := [],
          messages := s.messages ++ [userMessage clock (trim s.input)] ++ [placeholder clock] } with
    | normal st =>
      rw [hc] at hval
      simp only [Completion.value] at hval
      simp only [hval]
      rw [finishStreaming_append_bot _ _ hb1, streamingCount_append, hpre]
      simp [streamingCount]
    | throw m st =>
      rw [hc] at herr
      simp at herr

/-- C7, worked example: a turn with the frames for `Hel` and `lo`. -/
theorem C7_streaming_flag_lifecycle_witness :
    trim sampleState.input ≠ [] ∧ streamingCount sampleState.messages = 0 ∧
    responseOk 200 = true ∧
    (handleSubmit sampleEngine sampleClock false
      (.response 200 ⟨[utf16 "data: \x7b\"text\":\"Hel\"\x7d\n\n",
        utf16 "data: \x7b\"text\":\"lo\"\x7d\n\n"], .done⟩) sampleState).1.error = none ∧
    streamingCount (accept sampleClock false
      (begin sampleClock false (trim sampleState.input) sampleState).messages) = 1 ∧
    streamingCount (handleSubmit sampleEngine sampleClock false
      (.response 200 ⟨[utf16 "data: \x7b\"text\":\"Hel\"\x7d\n\n",
        utf16 "data: \x7b\"text\":\"lo\"\x7d\n\n"], .done⟩) sampleState).1.messages = 0 :=
  ⟨by decide, by decide, by decide, by decide,
    (C7_streaming_flag_lifecycle sampleEngine sampleClock sampleState (by decide)
      (by decide)).1.1,
    (C7_streaming_flag_lifecycle sampleEngine sampleClock sampleState (by decide)
      (by decide)).2 200 _ (by decide) (by decide)⟩

/-- C8, as the claim states it, fails: an accepted restart whose stream carries the frame
`data: {"error":"boom"}` leaves two messages, the restart notice and an error message. -/
theorem C8_restart_with_failing_stream :
    (handleSubmit sampleEngine sampleClock true
        (.response 200 ⟨[utf16 "data: \x7b\"error\":\"boom\"\x7d\n\n"], .done⟩)
        sampleState).1.messages =
      [restartMessage sampleClock, errorMessage sampleClock msgParseFailure] := by
  decide

/-- C8, amended. For every prior transcript and every accepted restart request: when the
stream ends without a failure, whatever frames it carries, the transcript is exactly one
message, the system message with the fixed restart notice; when the stream fails, that
message is followed by one system error message. -/
theorem C8_restart_replaces_transcript (eng : JsEngine) (clock : Clock) (s : State)
    (status : Nat) (body : Body) (hok : responseOk status = true) :
    ((handleSubmit eng clock true (.response status body) s).1.error = none →
      (handleSubmit eng clock true (.response status body) s).1.messages =
        [{ sender := .system, text := utf16 "對話已重啟。新的對話已開始。",
           timestamp := clock.accepted }]) ∧
    ∀ m, (handleSubmit eng clock true (.response status body) s).1.error = some m →
      (handleSubmit eng clock true (.response status body) s).1.messages =
        [{ sender := .system, text := utf16 "對話已重啟。新的對話已開始。",
           timestamp := clock.accepted }, errorMessage clock m] := by
  rw [handleSubmit_restart]
  simp only [settle_error, settle_messages, tryBody_accepted eng clock true status _ _ hok,
    begin_error]
  simp only [consume, accept, if_true]
  have hval := readLoop_other_tail eng body.ending body.chunks [] (restartMessage clock)
    (by simp [restartMessage]) []
  simp only [List.nil_append] at hval
  cases hc : readLoop eng body.ending body.chunks
      { assistantReply := [], messages := [restartMessage clock] } with
  | normal st =>
    rw [hc] at hval
    simp only [Completion.value] at hval
    simp only [hval]
    constructor
    · intro _
      have := updateLastBot_append_other (fun m => { m with isStreaming := some false }) []
        (restartMessage clock) (by simp [restartMessage])
      simpa [finishStreaming, restartMessage, restartNotice] using this
    · intro m hm
      simp at hm
  | throw m1 st =>
    rw [hc] at hval
    simp only [Completion.value] at hval
    simp only [hval]
    constructor
    · intro h
      simp at h
    · intro m hm
      simp only [Option.some.injEq] at hm
      subst hm
      have := onFailure_append clock m1 [] (restartMessage clock)
      simpa [restartMessage, restartNotice] using this

/-- C8, amended, worked example: a restart over a two-message transcript, answered with a
text frame. -/
theorem C8_restart_replaces_transcript_witness :
    responseOk 200 = true ∧
    (handleSubmit sampleEngine sampleClock true
      (.response 200 ⟨[utf16 "data: \x7b\"text\": \"ok\"\x7d\n\n"], .done⟩)
      { sampleState with
        messages := [userMessage sampleClock (utf16 "a"),
          errorMessage sampleClock (utf16 "b")] }).1.error = none ∧
    (handleSubmit sampleEngine sampleClock true
      (.response 200 ⟨[utf16 "data: \x7b\"text\": \"ok\"\x7d\n\n"], .done⟩)
      { sampleState with
        messages := [userMessage sampleClock (utf16 "a"),
          errorMessage sampleClock (utf16 "b")] }).1.messages =
      [{ sender := .system, text := utf16 "對話已重啟。新的對話已開始。",
         timestamp := sampleClock.accepted }] :=
  ⟨by decide, by decide,
    (C8_restart_replaces_transcript sampleEngine sampleClock _ 200 _ (by decide)).1
      (by decide)⟩

/-- C9. With an input that is empty or only whitespace, and without the restart flag, the
handler returns the state as it was (messages, input, isLoading and error) and sends no
request. -/
theorem C9_blank_input_is_noop (eng : JsEngine) (clock : Clock) (result : FetchResult)
    (s : State) (hblank : trim s.input = []) :
    handleSubmit eng clock false result s = (s, none) := by
  simp [handleSubmit, hblank]

/-- C9, worked example: the input is a space, a tab and a line feed. -/
theorem C9_blank_input_is_noop_witness :
    trim (utf16 " \t\n") = [] ∧
    handleSubmit sampleEngine sampleClock false (.response 200 ⟨[], .done⟩)
        { sampleState with input := utf16 " \t\n" } =
      ({ sampleState with input := utf16 " \t\n" }, none) :=
  ⟨by decide,
    C9_blank_input_is_noop sampleEngine sampleClock _ { sampleState with input := utf16 " \t\n" }
      (by decide)⟩

/-- C10. For a submission that is sent: a response whose status is not from 200 to 299 makes
the handler fail with the session-expired message for 401, the access-denied message for
403, and otherwise the server-error message that holds the decimal digits of the status;
a response whose status is from 200 to 299 never fails with a status message: the handler
then succeeds, or fails with the fixed parse-failure message, which is none of the status
messages, or with the message of the read failure that ended the body. -/
theorem C10_status_mapping (eng : JsEngine) (clock : Clock) (restart : Bool) (s : State)
    (status : Nat) (body : Body) (hsent : trim s.input ≠ [] ∨ restart = true) :
    (¬ (200 ≤ status ∧ status ≤ 299) →
      (status = 401 →
        (handleSubmit eng clock restart (.response status body) s).1.error =
          some (utf16 "登入已過期，請重新登入")) ∧
      (status = 403 →
        (handleSubmit eng clock restart (.response status body) s).1.error =
          some (utf16 "無訪問權限")) ∧
      (status ≠ 401 → status ≠ 403 →
        (handleSubmit eng clock restart (.response status body) s).1.error =
          some (utf16 "伺服器錯誤 (" ++ decimal status ++ utf16 ")"))) ∧
    ((200 ≤ status ∧ status ≤ 299) →
      ((handleSubmit eng clock restart (.response status body) s).1.error = none ∨
        (handleSubmit eng clock restart (.response status body) s).1.error =
          some (utf16 "回應格式錯誤或解析失敗") ∨
        ∃ m, body.ending = .failed m ∧
          (handleSubmit eng clock restart (.response status body) s).1.error = some m) ∧
      ∀ k, statusMessage k ≠ utf16 "回應格式錯誤或解析失敗") := by
  have hrun : (handleSubmit eng clock restart (.response status body) s).1 =
      settle eng clock restart (.response status body)
        (begin clock restart (trim s.input) s) := by
    cases restart with
    | true => rw [handleSubmit_restart]
    | false =>
      rcases hsent with h | h
      · rw [handleSubmit_normal eng clock _ s h]
      · cases h
  rw [hrun, settle_error]
  constructor
  · intro hbad
    have hok : responseOk status = false := by
      simp only [responseOk, Bool.and_eq_false_imp, decide_eq_true_eq, decide_eq_false_iff_not]
      intro h1 h2
      exact hbad ⟨h1, h2⟩
    rw [tryBody_refused eng clock restart status _ _ hok]
    refine ⟨?_, ?_, ?_⟩
    · intro h; subst h; rfl
    · intro h; subst h; rfl
    · intro h1 h3
      simp [statusMessage, h1, h3, msgServer]
  · intro hgood
    have hok : responseOk status = true := by
      simp [responseOk, hgood.1, hgood.2]
    rw [tryBody_accepted eng clock restart status _ _ hok]
    refine ⟨?_, fun k => statusMessage_ne_msgParseFailure k⟩
    simp only [consume]
    cases hc : readLoop eng body.ending body.chunks
        { assistantReply := [],
          messages := accept clock restart (begin clock restart (trim s.input) s).messages } with
    | normal st => exact Or.inl (begin_error _ _ _ _)
    | throw m st =>
      rcases readLoop_throw eng _ _ _ _ _ hc with h | h
      · exact Or.inr (Or.inl (by rw [h]; rfl))
      · exact Or.inr (Or.inr ⟨m, h, rfl⟩)

/-- C10, worked example: the statuses 401, 403 and 500. -/
theorem C10_status_mapping_witness :
    (trim sampleState.input ≠ [] ∨ false = true) ∧
    ¬ (200 ≤ 401 ∧ 401 ≤ 299) ∧ ¬ (200 ≤ 403 ∧ 403 ≤ 299) ∧ ¬ (200 ≤ 500 ∧ 500 ≤ 299) ∧
    (handleSubmit sampleEngine sampleClock false (.response 401 ⟨[], .done⟩)
        sampleState).1.error = some (utf16 "登入已過期，請重新登入") ∧
    (handleSubmit sampleEngine sampleClock false (.response 403 ⟨[], .done⟩)
        sampleState).1.error = some (utf16 "無訪問權限") ∧
    (handleSubmit sampleEngine sampleClock false (.response 500 ⟨[], .done⟩)
        sampleState).1.error = some (utf16 "伺服器錯誤 (500)") :=
  ⟨by decide, by decide, by decide, by decide,
    ((C10_status_mapping sampleEngine sampleClock false sampleState 401 ⟨[], .done⟩
      (by decide)).1 (by decide)).1 rfl,
    ((C10_status_mapping sampleEngine sampleClock false sampleState 403 ⟨[], .done⟩
      (by decide)).1 (by decide)).2.1 rfl,
    ((C10_status_mapping sampleEngine sampleClock false sampleState 500 ⟨[], .done⟩
      (by decide)).1 (by decide)).2.2 (by decide) (by decide)⟩

/-- C11. For every submission that is not the empty-input no-op and for every outcome of
the request (any `fetch` result and any body): `isLoading` is true in the state in which
the request is issued, and false when the handler completes. -/
theorem C11_busy_flag_released (eng : JsEngine) (clock : Clock) (restart : Bool)
    (result : FetchResult) (s : State) (hsent : trim s.input ≠ [] ∨ restart = true) :
    handleSubmit eng clock restart result s =
      (settle eng clock restart result (begin clock restart (trim s.input) s),
        some (if restart then Payload.restart else Payload.prompt (trim s.input))) ∧
    (begin clock restart (trim s.input) s).isLoading = true ∧
    (handleSubmit eng clock restart result s).1.isLoading = false := by
  have h := handleSubmit_sent eng clock restart result s hsent
  refine ⟨h, ?_, ?_⟩
  · simp [begin]
  · rw [h]
    exact settle_isLoading eng clock restart result _

/-- C11, worked example: normal completion, a rejected status, a network failure, a read
failure, a malformed frame and an error frame all end with `isLoading = false`. -/
theorem C11_busy_flag_released_witness :
    (trim sampleState.input ≠ [] ∨ false = true) ∧
    (sampleTurn [utf16 "data: \x7b\"text\":\"Hel\"\x7d\n\n"] .done sampleState).isLoading = false ∧
    (handleSubmit sampleEngine sampleClock false (.response 500 ⟨[], .done⟩)
      sampleState).1.isLoading = false ∧
    (handleSubmit sampleEngine sampleClock false (.rejected (utf16 "Failed to fetch"))
      sampleState).1.isLoading = false ∧
    (sampleTurn [] (.failed (utf16 "network error")) sampleState).isLoading = false ∧
    (sampleTurn [utf16 "data: \x7boops\n\n"] .done sampleState).isLoading = false ∧
    (sampleTurn [utf16 "data: \x7b\"error\":\"boom\"\x7d\n\n"] .done sampleState).isLoading =
      false :=
  ⟨by decide,
    (C11_busy_flag_released sampleEngine sampleClock false _ sampleState (by decide)).2.2,
    (C11_busy_flag_released sampleEngine sampleClock false _ sampleState (by decide)).2.2,
    (C11_busy_flag_released sampleEngine sampleClock false _ sampleState (by decide)).2.2,
    (C11_busy_flag_released sampleEngine sampleClock false _ sampleState (by decide)).2.2,
    (C11_busy_flag_released sampleEngine sampleClock false _ sampleState (by decide)).2.2,
    (C11_busy_flag_released sampleEngine sampleClock false _ sampleState (by decide)).2.2⟩

/-- C12, the code at the failing input: in the deploy copy a click on the restart button
while `isLoading` is true is not a no-op.  It sends a restart request, replaces the
transcript and clears `isLoading`; the same click in the web copy, whose button is
disabled, changes nothing. -/
theorem C12_deploy_restart_while_busy :
    sampleBusy.isLoading = true ∧
    sampleBusy.messages = [userMessage sampleClock (utf16 "hi")] ∧
    Deploy.clickRestart sampleEngine sampleClock true (.response 200 ⟨[], .done⟩) sampleBusy =
      ({ messages := [restartMessage sampleClock], input := [], isLoading := false,
         error := none }, some Payload.restart) ∧
    clickRestart sampleEngine sampleClock true (.response 200 ⟨[], .done⟩) sampleBusy =
      (sampleBusy, none) := by
  decide

/-- C13. Whenever the handler catches a failure with message `m`, on the transcript
reached at that point: `m` is stored as the error; if the last message is a bot message
with empty text, that message is removed and nothing is appended; otherwise nothing is
removed and one system message with `isError = true` and text `錯誤: ` followed by `m` is
appended. -/
theorem C13_failure_handler_either_or (eng : JsEngine) (clock : Clock) (restart : Bool)
    (result : FetchResult) (s : State) (m : JSString) (reached : List Message)
    (hsent : trim s.input ≠ [] ∨ restart = true)
    (hthrow : tryBody eng clock restart result (begin clock restart (trim s.input) s).messages =
      .throw m reached) :
    (handleSubmit eng clock restart result s).1.error = some m ∧
    (∀ pre b, reached = pre ++ [b] → b.sender = .bot → b.text = [] →
      (handleSubmit eng clock restart result s).1.messages = pre) ∧
    ((∀ pre b, reached = pre ++ [b] → ¬ (b.sender = .bot ∧ b.text = [])) →
      (handleSubmit eng clock restart result s).1.messages =
        reached ++ [{ sender := .system, text := utf16 "錯誤: " ++ m,
                      timestamp := clock.failed, isError := some true }]) := by
  rw [handleSubmit_sent eng clock restart result s hsent]
  simp only [settle_error, settle_messages, hthrow]
  refine ⟨trivial, ?_, ?_⟩
  · intro pre b hr hb ht
    rw [hr, onFailure_append]
    simp [hb, ht]
  · intro h
    rcases List.eq_nil_or_concat reached with hnil | ⟨pre, b, hr⟩
    · rw [hnil, onFailure_nil]
      rfl
    · rw [List.concat_eq_append] at hr
      have hb := h pre b hr
      rw [hr, onFailure_append]
      have hb2 : ¬ (b.sender = .bot ∧ b.text.isEmpty = true) := by
        simpa [List.isEmpty_iff] using hb
      rw [if_neg hb2]
      rfl

/-- C13, worked example: a refused request appends the error message after the user
message; an error frame before any text removes the placeholder and appends nothing. -/
theorem C13_failure_handler_either_or_witness :
    (trim sampleState.input ≠ [] ∨ false = true) ∧
    (handleSubmit sampleEngine sampleClock false (.response 500 ⟨[], .done⟩)
      sampleState).1.messages =
      [userMessage sampleClock (utf16 "hi"),
        { sender := .system, text := utf16 "錯誤: 伺服器錯誤 (500)",
          timestamp := sampleClock.failed, isError := some true }] ∧
    (sampleTurn [utf16 "data: \x7b\"error\":\"boom\"\x7d\n\n"] .done sampleState).messages =
      [userMessage sampleClock (utf16 "hi")] :=
  ⟨by decide,
    (C13_failure_handler_either_or sampleEngine sampleClock false
      (.response 500 ⟨[], .done⟩) sampleState (utf16 "伺服器錯誤 (500)")
      [userMessage sampleClock (utf16 "hi")] (by decide) rfl).2.2
      (by
        intro pre b h
        have hb : b = userMessage sampleClock (utf16 "hi") := by
          have := congrArg List.getLast? h
          simpa using this.symm
        rw [hb]
        decide),
    (C13_failure_handler_either_or sampleEngine sampleClock false
      (.response 200 ⟨[utf16 "data: \x7b\"error\":\"boom\"\x7d\n\n"], .done⟩) sampleState
      msgParseFailure
      ([userMessage sampleClock (utf16 "hi")] ++ [placeholder sampleClock]) (by decide) rfl).2.1
      [userMessage sampleClock (utf16 "hi")] (placeholder sampleClock) rfl rfl rfl⟩

/-- C14. For every transcript, non-blank input and status outside 200 to 299: the `try`
block throws at the status check with the transcript untouched (no placeholder is added,
and the body plays no part), and after the handler completes the transcript is the prior
one, the user message with the trimmed input, and one system message with
`isError = true` whose text is `錯誤: ` followed by the message for the status. -/
theorem C14_rejected_request_on_normal_turn (eng : JsEngine) (clock : Clock) (s : State)
    (status : Nat) (body : Body) (hinput : trim s.input ≠ [])
    (hbad : ¬ (200 ≤ status ∧ status ≤ 299)) :
    (handleSubmit eng clock false (.response status body) s).1.messages =
      s.messages ++
        [{ sender := .user, text := trim s.input, timestamp := clock.submitted },
         { sender := .system,
           text := utf16 "錯誤: " ++
             (if status = 401 then utf16 "登入已過期，請重新登入"
              else if status = 403 then utf16 "無訪問權限"
              else utf16 "伺服器錯誤 (" ++ decimal status ++ utf16 ")"),
           timestamp := clock.failed, isError := some true }] ∧
    (∃ m, tryBody eng clock false (.response status body)
        (begin clock false (trim s.input) s).messages =
      .throw m (begin clock false (trim s.input) s).messages) ∧
    ∀ other : Body, handleSubmit eng clock false (.response status other) s =
      handleSubmit eng clock false (.response status body) s := by
  have hok : responseOk status = false := by
    simp only [responseOk, Bool.and_eq_false_imp, decide_eq_true_eq, decide_eq_false_iff_not]
    intro h1 h2
    exact hbad ⟨h1, h2⟩
  have hrun : ∀ b : Body, handleSubmit eng clock false (.response status b) s =
      (settle eng clock false (.response status b) (begin clock false (trim s.input) s),
        some (Payload.prompt (trim s.input))) :=
    fun b => handleSubmit_normal eng clock _ s hinput
  have hsettle : ∀ b : Body,
      settle eng clock false (.response status b) (begin clock false (trim s.input) s) =
      settle eng clock false (.response status body) (begin clock false (trim s.input) s) := by
    intro b
    simp only [settle, tryBody_refused eng clock false status _ _ hok]
  refine ⟨?_, ⟨_, tryBody_refused eng clock false status body _ hok⟩, ?_⟩
  · rw [hrun, settle_messages, tryBody_refused eng clock false status body _ hok, begin_messages]
    simp only []
    rw [onFailure_append]
    simp [userMessage, errorMessage, statusMessage, msgExpired, msgForbidden, msgServer,
      errorPrefix]
  · intro other
    rw [hrun other, hrun body, hsettle other]

/-- C14, worked example: status 403 on an empty transcript. -/
theorem C14_rejected_request_on_normal_turn_witness :
    trim sampleState.input ≠ [] ∧ ¬ (200 ≤ 403 ∧ 403 ≤ 299) ∧
    (handleSubmit sampleEngine sampleClock false
      (.response 403 ⟨[utf16 "data: \x7b\"text\":\"Hel\"\x7d\n\n"], .done⟩)
      sampleState).1.messages =
      [{ sender := .user, text := utf16 "hi", timestamp := sampleClock.submitted },
       { sender := .system, text := utf16 "錯誤: 無訪問權限",
         timestamp := sampleClock.failed, isError := some true }] :=
  ⟨by decide, by decide,
    (C14_rejected_request_on_normal_turn sampleEngine sampleClock sampleState 403
      ⟨[utf16 "data: \x7b\"text\":\"Hel\"\x7d\n\n"], .done⟩ (by decide) (by decide)).1⟩

/-- C15. When the chunks before a chunk and the lines before one of its lines are
processed without a failure, and that line starts with `data: ` and the rest of it is
not valid JSON, the stream loop throws at that line: the accumulator and the transcript
are those the earlier frames left, whatever lines, chunks and ending follow, and the
handler fails with the fixed parse-failure message. -/
theorem C15_malformed_json_is_fatal (eng : JsEngine) (clock : Clock) (restart : Bool)
    (s : State) (status : Nat) (ending : StreamEnd) (pre post : List JSString)
    (chunk : JSString) (before after : List JSString) (bad : JSString) (st1 st2 : Loop)
    (hsent : trim s.input ≠ [] ∨ restart = true) (hok : responseOk status = true)
    (hpre : readLoop eng .done pre
      { assistantReply := [],
        messages := accept clock restart (begin clock restart (trim s.input) s).messages } =
      .normal st1)
    (hsplit : splitBlankLine chunk = before ++ bad :: after)
    (hbefore : processLines eng before st1 = .normal st2)
    (hdata : startsWith bad (utf16 "data: ") = true)
    (hbad : JSONparse (bad.drop 6) = none) :
    readLoop eng ending (pre ++ chunk :: post)
      { assistantReply := [],
        messages := accept clock restart (begin clock restart (trim s.input) s).messages } =
      .throw (utf16 "回應格式錯誤或解析失敗") st2 ∧
    (handleSubmit eng clock restart (.response status ⟨pre ++ chunk :: post, ending⟩)
      s).1.error = some (utf16 "回應格式錯誤或解析失敗") ∧
    (handleSubmit eng clock restart (.response status ⟨pre ++ chunk :: post, ending⟩)
      s).1.messages = onFailure clock (utf16 "回應格式錯誤或解析失敗") st2.messages := by
  have hbad2 : JSONparse (replaceFirstWithEmpty dataPrefix bad) = none := by
    rw [(replaceFirstWithEmpty_dataPrefix bad hdata).1]; exact hbad
  have hloop := readLoop_malformed_at eng ending pre post chunk before after bad _ st1 st2
    hpre hsplit hbefore hdata hbad2
  refine ⟨hloop, ?_, ?_⟩
  · rw [handleSubmit_sent eng clock restart _ s hsent, settle_error,
      tryBody_accepted eng clock restart status _ _ hok]
    simp only [consume, hloop]
    rfl
  · rw [handleSubmit_sent eng clock restart _ s hsent, settle_messages,
      tryBody_accepted eng clock restart status _ _ hok]
    simp only [consume, hloop]
    rfl

/-- C15, worked example: the frame for `Hel`, then a chunk with a comment line, the
malformed frame `data: {oops` and a text frame, then one more text frame. -/
theorem C15_malformed_json_is_fatal_witness :
    (handleSubmit sampleEngine sampleClock false
      (.response 200
        ⟨[utf16 "data: \x7b\"text\":\"Hel\"\x7d\n\n"] ++
          utf16 ": ping\n\ndata: \x7boops\n\ndata: \x7b\"text\":\"x\"\x7d\n\n" ::
          [utf16 "data: \x7b\"text\":\"lo\"\x7d\n\n"], .done⟩)
      sampleState).1.messages =
      [userMessage sampleClock (utf16 "hi"),
        { placeholder sampleClock with text := utf16 "Hel" },
        errorMessage sampleClock msgParseFailure] :=
  (C15_malformed_json_is_fatal sampleEngine sampleClock false sampleState 200 .done
    [utf16 "data: \x7b\"text\":\"Hel\"\x7d\n\n"] [utf16 "data: \x7b\"text\":\"lo\"\x7d\n\n"]
    (utf16 ": ping\n\ndata: \x7boops\n\ndata: \x7b\"text\":\"x\"\x7d\n\n")
    [utf16 ": ping"] [utf16 "data: \x7b\"text\":\"x\"\x7d", []] (utf16 "data: \x7boops")
    { assistantReply := utf16 "Hel",
      messages := [userMessage sampleClock (utf16 "hi"),
        { placeholder sampleClock with text := utf16 "Hel" }] }
    { assistantReply := utf16 "Hel",
      messages := [userMessage sampleClock (utf16 "hi"),
        { placeholder sampleClock with text := utf16 "Hel" }] }
    (by decide) (by decide) (by rfl) (by decide) (by rfl) (by decide) (by rfl)).2.2

/-- C16. The handler `handleRestart` asks for confirmation exactly when the transcript
holds more than one message.  With zero or one message it issues the restart whatever the
answer would be; with more than one message it issues the restart when the confirmation
is given and otherwise leaves the state as it is and sends nothing.  Issuing the restart
is running `handleSubmit(null, true)`, which sends the restart payload. -/
theorem C16_restart_confirmation_guard (eng : JsEngine) (clock : Clock) (confirmed : Bool)
    (result : FetchResult) (s : State) :
    ((handleRestart eng clock confirmed result s).2 = true ↔ s.messages.length > 1) ∧
    (s.messages.length ≤ 1 →
      (handleRestart eng clock confirmed result s).1 = handleSubmit eng clock true result s) ∧
    (s.messages.length > 1 → confirmed = true →
      (handleRestart eng clock confirmed result s).1 = handleSubmit eng clock true result s) ∧
    (s.messages.length > 1 → confirmed = false →
      (handleRestart eng clock confirmed result s).1 = (s, none)) ∧
    (handleSubmit eng clock true result s).2 = some Payload.restart := by
  refine ⟨?_, ?_, ?_, ?_, ?_⟩
  · unfold handleRestart
    split_ifs with h1 h2 <;> simp [h1]
  · intro h
    have h1 : ¬ s.messages.length > 1 := by omega
    simp [handleRestart, h1]
  · intro h hc
    simp [handleRestart, h, hc]
  · intro h hc
    simp [handleRestart, h, hc]
  · rw [handleSubmit_restart]

/-- C16, worked example: one message, and two messages with and without confirmation. -/
theorem C16_restart_confirmation_guard_witness :
    sampleBusy.messages.length ≤ 1 ∧
    (handleRestart sampleEngine sampleClock false (.response 200 ⟨[], .done⟩) sampleBusy).1 =
      handleSubmit sampleEngine sampleClock true (.response 200 ⟨[], .done⟩) sampleBusy ∧
    (sampleTurn [] .done sampleState).messages.length > 1 ∧
    (handleRestart sampleEngine sampleClock true (.response 200 ⟨[], .done⟩)
      (sampleTurn [] .done sampleState)).1 =
      handleSubmit sampleEngine sampleClock true (.response 200 ⟨[], .done⟩)
        (sampleTurn [] .done sampleState) ∧
    (handleRestart sampleEngine sampleClock false (.response 200 ⟨[], .done⟩)
      (sampleTurn [] .done sampleState)).1 = (sampleTurn [] .done sampleState, none) :=
  ⟨by decide,
    (C16_restart_confirmation_guard sampleEngine sampleClock false _ sampleBusy).2.1
      (by decide),
    by decide,
    (C16_restart_confirmation_guard sampleEngine sampleClock true _
      (sampleTurn [] .done sampleState)).2.2.1 (by decide) rfl,
    (C16_restart_confirmation_guard sampleEngine sampleClock false _
      (sampleTurn [] .done sampleState)).2.2.2.1 (by decide) rfl⟩

/-- C17. Every submission that is not the empty-input no-op sends exactly one request,
with method `POST`.  With the restart flag its body is the text `{"restart":true}`, which
reads back as the object with the one member `restart: true`, whatever the input holds;
without it the body reads back as the object with the one member `prompt`, whose value is
the trimmed input.  Neither object has both keys. -/
theorem C17_request_body (eng : JsEngine) (clock : Clock) (restart : Bool)
    (result : FetchResult) (s : State) (hsent : trim s.input ≠ [] ∨ restart = true) :
    ∃ r : Request, requestsSent eng clock restart result s = [r] ∧
      r.method = utf16 "POST" ∧ r.contentType = utf16 "application/json" ∧
      (restart = true → r.body = utf16 "\x7b\"restart\":true\x7d" ∧
        JSONparse r.body = some (.obj [(utf16 "restart", .bool true)])) ∧
      (restart = false →
        JSONparse r.body = some (.obj [(utf16 "prompt", .str (trim s.input))])) := by
  refine ⟨fetchCall (if restart then Payload.restart else Payload.prompt (trim s.input)),
    ?_, rfl, rfl, ?_, ?_⟩
  · simp only [requestsSent, handleSubmit_sent eng clock restart result s hsent]
  · intro h
    subst h
    exact ⟨rfl, JSONparse_stringify_restart⟩
  · intro h
    subst h
    exact JSONparse_stringify_prompt (trim s.input)

/-- C17, worked example: the bodies sent for the input ` hi ` and for a restart. -/
theorem C17_request_body_witness :
    (trim sampleState.input ≠ [] ∨ false = true) ∧
    (trim [] ≠ [] ∨ true = true) ∧
    (requestsSent sampleEngine sampleClock false (.response 200 ⟨[], .done⟩) sampleState).map
      (fun r => (r.method, r.body)) = [(utf16 "POST", utf16 "\x7b\"prompt\":\"hi\"\x7d")] ∧
    (requestsSent sampleEngine sampleClock true (.response 200 ⟨[], .done⟩) sampleState).map
      (fun r => (r.method, r.body)) = [(utf16 "POST", utf16 "\x7b\"restart\":true\x7d")] ∧
    (∃ r : Request,
      requestsSent sampleEngine sampleClock false (.response 200 ⟨[], .done⟩) sampleState = [r] ∧
      r.method = utf16 "POST" ∧ r.contentType = utf16 "application/json" ∧
      (false = true → r.body = utf16 "\x7b\"restart\":true\x7d" ∧
        JSONparse r.body = some (.obj [(utf16 "restart", .bool true)])) ∧
      (false = false →
        JSONparse r.body = some (.obj [(utf16 "prompt", .str (trim sampleState.input))]))) :=
  ⟨by decide, by decide, by decide, by decide,
    C17_request_body sampleEngine sampleClock false (.response 200 ⟨[], .done⟩) sampleState
      (by decide)⟩

/-- C18. The trimmed input is the input without its leading and trailing whitespace, the
rest unchanged.  For a non-blank input and no restart flag, the state in which the request
is issued has one more message, the user message with the trimmed input as text, and an
empty input; whatever the outcome of the request, the final state has an empty input and
a transcript that starts with the prior transcript and that user message.  With the
restart flag the transcript and the input are as they were when the request is issued,
the final input is unchanged, and every message of the final transcript was there before
or is a system message. -/
theorem C18_user_message_on_accept (eng : JsEngine) (clock : Clock) (result : FetchResult)
    (s : State) :
    (∃ leading trailing, s.input = leading ++ trim s.input ++ trailing ∧
      (∀ c ∈ leading, isTrimSpace c = true) ∧ (∀ c ∈ trailing, isTrimSpace c = true) ∧
      (∀ c, (trim s.input).head? = some c → isTrimSpace c = false) ∧
      (∀ c, (trim s.input).getLast? = some c → isTrimSpace c = false)) ∧
    (trim s.input ≠ [] →
      handleSubmit eng clock false result s =
        (settle eng clock false result (begin clock false (trim s.input) s),
          some (Payload.prompt (trim s.input))) ∧
      (begin clock false (trim s.input) s).messages =
        s.messages ++ [{ sender := .user, text := trim s.input, timestamp := clock.submitted }] ∧
      (begin clock false (trim s.input) s).input = [] ∧
      (handleSubmit eng clock false result s).1.input = [] ∧
      ∃ tail, (handleSubmit eng clock false result s).1.messages =
        s.messages ++ [{ sender := .user, text := trim s.input, timestamp := clock.submitted }]
          ++ tail) ∧
    ((begin clock true (trim s.input) s).messages = s.messages ∧
      (begin clock true (trim s.input) s).input = s.input ∧
      (handleSubmit eng clock true result s).1.input = s.input ∧
      ∀ x ∈ (handleSubmit eng clock true result s).1.messages,
        x ∈ s.messages ∨ x.sender = .system) := by
  refine ⟨⟨s.input.takeWhile isTrimSpace, (s.input.dropWhile isTrimSpace).rtakeWhile isTrimSpace,
    trim_decompose s.input, ?_, ?_, ?_, ?_⟩, ?_, ?_⟩
  · intro c hc
    exact List.mem_takeWhile_imp hc
  · intro c hc
    exact List.mem_rtakeWhile_imp hc
  · intro c hc
    cases ht : trim s.input with
    | nil => rw [ht] at hc; simp at hc
    | cons d rest =>
      rw [ht] at hc
      simp only [List.head?_cons, Option.some.injEq] at hc
      subst hc
      exact trim_head_not_space s.input d rest ht
  · intro c hc
    exact trim_last_not_space s.input c hc
  · intro hinput
    have hrun := handleSubmit_normal eng clock result s hinput
    refine ⟨hrun, begin_messages clock _ s, by simp [begin], ?_, ?_⟩
    · rw [hrun, settle_input]
      simp [begin]
    · rw [hrun]
      exact settle_normal_turn_messages eng clock result (trim s.input) s
  · refine ⟨begin_restart_messages clock _ s, by simp [begin], ?_, ?_⟩
    · rw [handleSubmit_restart, settle_input]
      simp [begin]
    · intro x hx
      rw [handleSubmit_restart] at hx
      have := settle_restart_messages eng clock result _ x hx
      rwa [begin_restart_messages] at this

/-- C18, worked example: the input ` hi ` gives the user message `hi`. -/
theorem C18_user_message_on_accept_witness :
    trim sampleState.input ≠ [] ∧ trim sampleState.input = utf16 "hi" ∧
    (begin sampleClock false (trim sampleState.input) sampleState).messages =
      sampleState.messages ++
        [{ sender := .user, text := trim sampleState.input,
           timestamp := sampleClock.submitted }] :=
  ⟨by decide, by decide,
    ((C18_user_message_on_accept sampleEngine sampleClock (.response 200 ⟨[], .done⟩)
      sampleState).2.1 (by decide)).2.1⟩

/-- C19. For every state, every call of `handleSubmit`, `handleRestart` or
`handleKeyPress` and every server response, the handlers of the deploy copy give what
those of the web copy give: the same state (messages, input, isLoading, error) and the
same payload.  The `fetch` calls have the same method, header and body and differ in
the address. -/
theorem C19_two_copies_same_controller (eng : JsEngine) (clock : Clock) (restart : Bool)
    (confirmed : Bool) (e : KeyEvent) (result : FetchResult) (s : State) (payload : Payload) :
    Deploy.handleSubmit eng clock restart result s = handleSubmit eng clock restart result s ∧
    Deploy.handleRestart eng clock confirmed result s =
      handleRestart eng clock confirmed result s ∧
    Deploy.handleKeyPress eng clock e result s = handleKeyPress eng clock e result s ∧
    Deploy.fetchCall payload =
      { fetchCall payload with url := utf16 "http://203.64.104.21:5000/generate" } ∧
    (fetchCall payload).url = utf16 "http://127.0.0.1:5000/generate" ∧
    (Deploy.fetchCall payload).url ≠ (fetchCall payload).url :=
  ⟨Deploy.handleSubmit_eq eng clock restart result s,
    Deploy.handleRestart_eq eng clock confirmed result s,
    Deploy.handleKeyPress_eq eng clock e result s, rfl, rfl, by
      show utf16 "http://203.64.104.21:5000/generate" ≠ utf16 "http://127.0.0.1:5000/generate"
      decide⟩

/-- C20. A piece of a chunk that does not start with `data: ` leaves the accumulator and
the transcript as they were and does not throw.  For a piece that starts with it, the text
given to `JSON.parse` is the piece without its first six code units, and the piece fails
when that text is not valid JSON.  So a chunk is handled as its data lines alone. -/
theorem C20_only_data_lines_processed (eng : JsEngine) (line chunk : JSString) (st : Loop) :
    (startsWith line (utf16 "data: ") = false → processLine eng line st = .normal st) ∧
    (startsWith line (utf16 "data: ") = true →
      replaceFirstWithEmpty (utf16 "data: ") line = line.drop 6 ∧
      line = utf16 "data: " ++ line.drop 6 ∧
      tryFrame eng line st = tryFrame eng (utf16 "data: " ++ line.drop 6) st ∧
      (JSONparse (line.drop 6) = none →
        processLine eng line st = .throw (utf16 "回應格式錯誤或解析失敗") st)) ∧
    processChunk eng chunk st =
      processLines eng
        ((splitBlankLine chunk).filter (fun piece => startsWith piece (utf16 "data: "))) st := by
  refine ⟨fun h => processLine_other eng line st h, ?_, processLines_filter eng _ st⟩
  intro h
  have hd := replaceFirstWithEmpty_dataPrefix line h
  refine ⟨hd.1, hd.2, ?_, ?_⟩
  · have := hd.2
    exact congrArg (fun l => tryFrame eng l st) this
  · intro hbad
    exact processLine_malformed eng line st h (by rw [hd.1]; exact hbad)

/-- C20, worked example: an empty piece, a comment line, an event line and a data line
behind a space are skipped; a data line loses its first six code units. -/
theorem C20_only_data_lines_processed_witness :
    startsWith [] (utf16 "data: ") = false ∧
    startsWith (utf16 ": ping") (utf16 "data: ") = false ∧
    startsWith (utf16 "event: message") (utf16 "data: ") = false ∧
    startsWith (utf16 " data: \x7b\"text\":\"x\"\x7d") (utf16 "data: ") = false ∧
    processLine sampleEngine (utf16 " data: \x7b\"text\":\"x\"\x7d")
        { assistantReply := [], messages := [placeholder sampleClock] } =
      .normal { assistantReply := [], messages := [placeholder sampleClock] } ∧
    startsWith (utf16 "data: \x7b\"text\":\"x\"\x7d") (utf16 "data: ") = true ∧
    replaceFirstWithEmpty (utf16 "data: ") (utf16 "data: \x7b\"text\":\"x\"\x7d") =
      utf16 "\x7b\"text\":\"x\"\x7d" :=
  ⟨by decide, by decide, by decide, by decide,
    (C20_only_data_lines_processed sampleEngine (utf16 " data: \x7b\"text\":\"x\"\x7d") []
      { assistantReply := [], messages := [placeholder sampleClock] }).1 (by decide),
    by decide,
    ((C20_only_data_lines_processed sampleEngine (utf16 "data: \x7b\"text\":\"x\"\x7d") []
      { assistantReply := [], messages := [placeholder sampleClock] }).2.1 (by decide)).1⟩

/-- C21, as the claim states it, fails: an accepted restart whose stream then fails leaves
the restart notice and an error message, and the two messages of the prior transcript are
gone. -/
theorem C21_accepted_restart_then_failure :
    (handleSubmit sampleEngine sampleClock true
      (.response 200 ⟨[utf16 "data: \x7b\"error\":\"boom\"\x7d\n\n"], .done⟩)
      { sampleState with
        messages := [userMessage sampleClock (utf16 "a"),
          errorMessage sampleClock (utf16 "b")] }).1 =
      { messages := [restartMessage sampleClock, errorMessage sampleClock msgParseFailure],
        input := utf16 " hi ", isLoading := false, error := some msgParseFailure } ∧
    [restartMessage sampleClock, errorMessage sampleClock msgParseFailure].take 2 ≠
      [userMessage sampleClock (utf16 "a"), errorMessage sampleClock (utf16 "b")] := by
  decide

/-- C21, amended. A normal submission, failed or not, keeps the prior transcript and its
user message in front, and when its failure handler removes a message, that message is the
placeholder the same submission appended.  A restart that is refused or whose `fetch`
fails keeps the prior transcript in front and appends the error message, when the prior
transcript does not end with an empty bot message.  An accepted restart has replaced the
prior transcript by the restart notice, whether or not its stream then fails. -/
theorem C21_failed_submission_keeps_transcript (eng : JsEngine) (clock : Clock)
    (result : FetchResult) (s : State) :
    (trim s.input ≠ [] →
      (∃ tail, (handleSubmit eng clock false result s).1.messages =
        s.messages ++ [userMessage clock (trim s.input)] ++ tail) ∧
      ∀ m reached,
        tryBody eng clock false result (begin clock false (trim s.input) s).messages =
          .throw m reached →
        (handleSubmit eng clock false result s).1.messages =
          reached ++ [errorMessage clock m] ∨
        (reached = s.messages ++ [userMessage clock (trim s.input)] ++ [placeholder clock] ∧
          (handleSubmit eng clock false result s).1.messages =
            s.messages ++ [userMessage clock (trim s.input)])) ∧
    ((∀ pre b, s.messages = pre ++ [b] → ¬ (b.sender = .bot ∧ b.text = [])) →
      (∀ m, result = .rejected m →
        (handleSubmit eng clock true result s).1.messages =
          s.messages ++ [errorMessage clock m]) ∧
      ∀ status body, result = .response status body → responseOk status = false →
        (handleSubmit eng clock true result s).1.messages =
          s.messages ++ [errorMessage clock (statusMessage status)]) ∧
    (∀ status body, result = .response status body → responseOk status = true →
      (handleSubmit eng clock true result s).1.messages = [restartMessage clock] ∨
      ∃ m, (handleSubmit eng clock true result s).1.messages =
        [restartMessage clock, errorMessage clock m]) := by
  refine ⟨?_, ?_, ?_⟩
  · intro hinput
    rw [handleSubmit_normal eng clock result s hinput]
    refine ⟨settle_normal_turn_messages eng clock result (trim s.input) s, ?_⟩
    intro m reached hthrow
    simp only [settle_messages, hthrow]
    rw [begin_messages] at hthrow
    rcases tryBody_normal_turn_exact eng clock result
        (s.messages ++ [userMessage clock (trim s.input)]) with
      ⟨reply, h⟩ | (⟨m1, _, h⟩ | ⟨status, body, _, _, h⟩) | ⟨m1, reply, _, h⟩
    · rw [h] at hthrow; cases hthrow
    · rw [h] at hthrow
      cases hthrow
      rw [onFailure_append]
      exact Or.inl (by simp [userMessage])
    · rw [h] at hthrow
      cases hthrow
      rw [onFailure_append]
      exact Or.inl (by simp [userMessage])
    · rw [h] at hthrow
      cases hthrow
      rw [onFailure_append]
      by_cases hr : reply = []
      · subst hr
        exact Or.inr ⟨rfl, by simp [placeholder]⟩
      · refine Or.inl ?_
        have hne : ¬ (reply.isEmpty = true) := by simpa [List.isEmpty_iff] using hr
        simp [hne]
  · intro hlast
    refine ⟨?_, ?_⟩
    · intro m hres
      subst hres
      rw [handleSubmit_restart, settle_messages, begin_restart_messages]
      simp only [tryBody]
      exact onFailure_of_not_empty_bot clock m s.messages hlast
    · intro status body hres hok
      subst hres
      rw [handleSubmit_restart, settle_messages, begin_restart_messages,
        tryBody_refused eng clock true status body _ hok]
      exact onFailure_of_not_empty_bot clock _ s.messages hlast
  · intro status body hres hok
    subst hres
    rw [handleSubmit_restart, settle_messages, tryBody_accepted eng clock true status _ _ hok]
    simp only [accept, if_true]
    rcases consume_restart eng clock body with h | ⟨m, h⟩
    · rw [h]; exact Or.inl rfl
    · rw [h]
      refine Or.inr ⟨m, ?_⟩
      have := onFailure_append clock m [] (restartMessage clock)
      simpa [restartMessage] using this

/-- C21, amended, worked example: a refused normal turn and a refused restart on a
two-message transcript keep it in front. -/
theorem C21_failed_submission_keeps_transcript_witness :
    trim sampleState.input ≠ [] ∧
    (∀ pre b, [userMessage sampleClock (utf16 "a"), errorMessage sampleClock (utf16 "b")] =
      pre ++ [b] → ¬ (b.sender = .bot ∧ b.text = [])) ∧
    (∃ tail, (handleSubmit sampleEngine sampleClock false (.response 500 ⟨[], .done⟩)
      sampleState).1.messages =
        sampleState.messages ++ [userMessage sampleClock (trim sampleState.input)] ++ tail) ∧
    (handleSubmit sampleEngine sampleClock true (.response 500 ⟨[], .done⟩)
      { sampleState with
        messages := [userMessage sampleClock (utf16 "a"),
          errorMessage sampleClock (utf16 "b")] }).1.messages =
      [userMessage sampleClock (utf16 "a"), errorMessage sampleClock (utf16 "b")] ++
        [errorMessage sampleClock (statusMessage 500)] :=
  have hlast : ∀ pre b,
      [userMessage sampleClock (utf16 "a"), errorMessage sampleClock (utf16 "b")] =
        pre ++ [b] → ¬ (b.sender = .bot ∧ b.text = []) := by
    intro pre b h
    have hb : b = errorMessage sampleClock (utf16 "b") := by
      have := congrArg List.getLast? h
      simpa using this.symm
    rw [hb]
    decide
  ⟨by decide, hlast,
    ((C21_failed_submission_keeps_transcript sampleEngine sampleClock
      (.response 500 ⟨[], .done⟩) sampleState).1 (by decide)).1,
    ((C21_failed_submission_keeps_transcript sampleEngine sampleClock
      (.response 500 ⟨[], .done⟩)
      { sampleState with
        messages := [userMessage sampleClock (utf16 "a"),
          errorMessage sampleClock (utf16 "b")] }).2.1 hlast).2 500 ⟨[], .done⟩ rfl
      (by decide)⟩

/-- A refused restart on a transcript that ends with an empty bot message removes that
message, which an earlier turn had left, and appends nothing. -/
theorem refused_restart_removes_empty_bot_message :
    (sampleTurn [] .done sampleState).messages =
      [userMessage sampleClock (utf16 "hi"),
        { placeholder sampleClock with isStreaming := some false }] ∧
    (handleSubmit sampleEngine sampleClock true (.response 500 ⟨[], .done⟩)
      (sampleTurn [] .done sampleState)).1.messages =
      [userMessage sampleClock (utf16 "hi")] := by
  decide

/-- C22. For every transcript and non-blank input, after the handler completes the
transcript is the prior transcript, the user message with the trimmed input, and one of:
(a) one bot message, with no error stored (the stream ended normally); (b) one system
error message (the request was refused or `fetch` failed); (c) nothing (the stream of an
accepted request failed while the bot message had no text); (d) one bot message with text
and then one system error message (the stream of an accepted request failed after text
was written).  So the length grows by one, two or three and the prior transcript is
unchanged in front. -/
theorem C22_normal_turn_outcomes (eng : JsEngine) (clock : Clock) (result : FetchResult)
    (s : State) (hinput : trim s.input ≠ []) :
    (((handleSubmit eng clock false result s).1.error = none ∧
        ∃ reply, (handleSubmit eng clock false result s).1.messages =
          s.messages ++ [userMessage clock (trim s.input),
            { placeholder clock with text := reply, isStreaming := some false }]) ∨
      (∃ m, (handleSubmit eng clock false result s).1.error = some m ∧
        (result = .rejected m ∨
          ∃ status body, result = .response status body ∧ responseOk status = false) ∧
        (handleSubmit eng clock false result s).1.messages =
          s.messages ++ [userMessage clock (trim s.input), errorMessage clock m]) ∨
      (∃ m, (handleSubmit eng clock false result s).1.error = some m ∧
        (∃ status body, result = .response status body ∧ responseOk status = true) ∧
        (handleSubmit eng clock false result s).1.messages =
          s.messages ++ [userMessage clock (trim s.input)]) ∨
      (∃ m reply, (handleSubmit eng clock false result s).1.error = some m ∧
        (∃ status body, result = .response status body ∧ responseOk status = true) ∧
        reply ≠ [] ∧
        (handleSubmit eng clock false result s).1.messages =
          s.messages ++ [userMessage clock (trim s.input),
            { placeholder clock with text := reply }, errorMessage clock m])) ∧
    ((handleSubmit eng clock false result s).1.messages.length = s.messages.length + 1 ∨
      (handleSubmit eng clock false result s).1.messages.length = s.messages.length + 2 ∨
      (handleSubmit eng clock false result s).1.messages.length = s.messages.length + 3) ∧
    (handleSubmit eng clock false result s).1.messages.take s.messages.length = s.messages := by
  have hcases : ((handleSubmit eng clock false result s).1.error = none ∧
        ∃ reply, (handleSubmit eng clock false result s).1.messages =
          s.messages ++ [userMessage clock (trim s.input),
            { placeholder clock with text := reply, isStreaming := some false }]) ∨
      (∃ m, (handleSubmit eng clock false result s).1.error = some m ∧
        (result = .rejected m ∨
          ∃ status body, result = .response status body ∧ responseOk status = false) ∧
        (handleSubmit eng clock false result s).1.messages =
          s.messages ++ [userMessage clock (trim s.input), errorMessage clock m]) ∨
      (∃ m, (handleSubmit eng clock false result s).1.error = some m ∧
        (∃ status body, result = .response status body ∧ responseOk status = true) ∧
        (handleSubmit eng clock false result s).1.messages =
          s.messages ++ [userMessage clock (trim s.input)]) ∨
      (∃ m reply, (handleSubmit eng clock false result s).1.error = some m ∧
        (∃ status body, result = .response status body ∧ responseOk status = true) ∧
        reply ≠ [] ∧
        (handleSubmit eng clock false result s).1.messages =
          s.messages ++ [userMessage clock (trim s.input),
            { placeholder clock with text := reply }, errorMessage clock m]) := by
    rw [handleSubmit_normal eng clock result s hinput]
    simp only [settle_error, settle_messages, begin_messages, begin_error]
    rcases tryBody_normal_turn_exact eng clock result
        (s.messages ++ [userMessage clock (trim s.input)]) with
      ⟨reply, h⟩ | (⟨m1, hres, h⟩ | ⟨status, body, hres, hok, h⟩) | ⟨m1, reply, hres, h⟩
    · rw [h]
      exact Or.inl ⟨rfl, reply, by simp⟩
    · rw [h]
      refine Or.inr (Or.inl ⟨m1, rfl, Or.inl hres, ?_⟩)
      simp only []
      rw [onFailure_append]
      simp [userMessage]
    · rw [h]
      refine Or.inr (Or.inl ⟨statusMessage status, rfl, Or.inr ⟨status, body, hres, hok⟩, ?_⟩)
      simp only []
      rw [onFailure_append]
      simp [userMessage]
    · rw [h]
      simp only []
      rw [onFailure_append]
      by_cases hr : reply = []
      · subst hr
        exact Or.inr (Or.inr (Or.inl ⟨m1, rfl, hres, by simp [placeholder]⟩))
      · have hne : ¬ (reply.isEmpty = true) := by simpa [List.isEmpty_iff] using hr
        exact Or.inr (Or.inr (Or.inr ⟨m1, reply, rfl, hres, hr, by simp [hne]⟩))
  refine ⟨hcases, ?_, ?_⟩
  · rcases hcases with ⟨_, reply, h⟩ | ⟨m, _, _, h⟩ | ⟨m, _, _, h⟩ | ⟨m, reply, _, _, _, h⟩
    · rw [h]; simp
    · rw [h]; simp
    · rw [h]; simp
    · rw [h]; simp
  · rcases hcases with ⟨_, reply, h⟩ | ⟨m, _, _, h⟩ | ⟨m, _, _, h⟩ | ⟨m, reply, _, _, _, h⟩
    · rw [h]; simp
    · rw [h]; simp
    · rw [h]; simp
    · rw [h]; simp

/-- C22, worked example: each of the four outcomes occurs. -/
theorem C22_normal_turn_outcomes_witness :
    trim sampleState.input ≠ [] ∧
    (sampleTurn [utf16 "data: \x7b\"text\":\"Hel\"\x7d\n\n"] .done sampleState).messages =
      [userMessage sampleClock (utf16 "hi"),
        { placeholder sampleClock with text := utf16 "Hel", isStreaming := some false }] ∧
    (handleSubmit sampleEngine sampleClock false (.rejected (utf16 "Failed to fetch"))
      sampleState).1.messages =
      [userMessage sampleClock (utf16 "hi"),
        errorMessage sampleClock (utf16 "Failed to fetch")] ∧
    (sampleTurn [utf16 "data: \x7boops\n\n"] .done sampleState).messages =
      [userMessage sampleClock (utf16 "hi")] ∧
    (sampleTurn [utf16 "data: \x7b\"text\":\"Hel\"\x7d\n\n", utf16 "data: \x7boops\n\n"] .done
      sampleState).messages =
      [userMessage sampleClock (utf16 "hi"),
        { placeholder sampleClock with text := utf16 "Hel" },
        errorMessage sampleClock msgParseFailure] ∧
    (sampleTurn [utf16 "data: \x7b\"text\":\"Hel\"\x7d\n\n", utf16 "data: \x7boops\n\n"] .done
      sampleState).messages.take sampleState.messages.length = sampleState.messages :=
  ⟨by decide, by decide, by decide, by decide, by decide,
    (C22_normal_turn_outcomes sampleEngine sampleClock
      (.response 200 ⟨[utf16 "data: \x7b\"text\":\"Hel\"\x7d\n\n",
        utf16 "data: \x7boops\n\n"], .done⟩) sampleState (by decide)).2.2⟩

/-- C23. Two accepted responses whose streams carry the same text frames and then a frame
that fails (its payload is not valid JSON, or it holds a truthy `error` field and no
text), whatever that frame holds and whatever follows it: both runs store the fixed
parse-failure message as the error, their final states are equal when the timestamps of
the messages are left out, and equal outright when the clock readings are the same. -/
theorem C23_frame_failures_indistinguishable (eng : JsEngine) (clock1 clock2 : Clock)
    (restart : Bool) (s : State) (status1 status2 : Nat) (ts : List JSString)
    (p1 p2 : JSString) (post1 post2 : List JSString) (ending1 ending2 : StreamEnd)
    (hsent : trim s.input ≠ [] ∨ restart = true)
    (hok1 : responseOk status1 = true) (hok2 : responseOk status2 = true)
    (hlf1 : 0x0A ∉ p1) (hlf2 : 0x0A ∉ p2)
    (hfail1 : JSONparse p1 = none ∨
      ∃ data t e, JSONparse p1 = some data ∧
        getProp data (utf16 "text") = some t ∧ truthy eng t = false ∧
        getProp data (utf16 "error") = some e ∧ truthy eng e = true)
    (hfail2 : JSONparse p2 = none ∨
      ∃ data t e, JSONparse p2 = some data ∧
        getProp data (utf16 "text") = some t ∧ truthy eng t = false ∧
        getProp data (utf16 "error") = some e ∧ truthy eng e = true) :
    (handleSubmit eng clock1 restart
      (.response status1
        ⟨ts.map (fun t => frame (textPayload t)) ++ frame p1 :: post1, ending1⟩)
      s).1.withoutTimestamps =
    (handleSubmit eng clock2 restart
      (.response status2
        ⟨ts.map (fun t => frame (textPayload t)) ++ frame p2 :: post2, ending2⟩)
      s).1.withoutTimestamps ∧
    (handleSubmit eng clock1 restart
      (.response status1
        ⟨ts.map (fun t => frame (textPayload t)) ++ frame p1 :: post1, ending1⟩)
      s).1.error = some (utf16 "回應格式錯誤或解析失敗") ∧
    (handleSubmit eng clock2 restart
      (.response status2
        ⟨ts.map (fun t => frame (textPayload t)) ++ frame p2 :: post2, ending2⟩)
      s).1.error = some (utf16 "回應格式錯誤或解析失敗") ∧
    (clock1 = clock2 →
      (handleSubmit eng clock1 restart
        (.response status1
          ⟨ts.map (fun t => frame (textPayload t)) ++ frame p1 :: post1, ending1⟩)
        s).1 =
      (handleSubmit eng clock2 restart
        (.response status2
          ⟨ts.map (fun t => frame (textPayload t)) ++ frame p2 :: post2, ending2⟩)
        s).1) := by
  rw [handleSubmit_textFrames_then_failing eng clock1 restart s status1 ts p1 post1 ending1
      hsent hok1 hlf1 hfail1,
    handleSubmit_textFrames_then_failing eng clock2 restart s status2 ts p2 post2 ending2
      hsent hok2 hlf2 hfail2]
  refine ⟨?_, ?_, ?_, ?_⟩
  · cases restart with
    | true =>
      simp [State.withoutTimestamps, Message.withoutTimestamp, restartMessage, errorMessage]
    | false =>
      by_cases hts : ts.flatten = []
      · simp [hts, State.withoutTimestamps, Message.withoutTimestamp, userMessage]
      · simp [hts, State.withoutTimestamps, Message.withoutTimestamp, userMessage,
          placeholder, errorMessage]
  · cases restart <;> rfl
  · cases restart <;> rfl
  · intro h
    rw [h]

/-- C23, worked example: after the frame for `Hel`, a malformed frame followed by a text
frame, and an error frame with `boom`, leave the same state. -/
theorem C23_frame_failures_indistinguishable_witness :
    sampleTurn [utf16 "data: \x7b\"text\": \"Hel\"\x7d\n\n",
        utf16 "data: \x7boops\n\n", utf16 "data: \x7b\"text\": \"lo\"\x7d\n\n"] .done
        sampleState =
      sampleTurn [utf16 "data: \x7b\"text\": \"Hel\"\x7d\n\n",
        utf16 "data: \x7b\"error\": \"boom\"\x7d\n\n"] (.failed (utf16 "network error"))
        sampleState :=
  (C23_frame_failures_indistinguishable sampleEngine sampleClock sampleClock false sampleState
    200 200 [utf16 "Hel"] (utf16 "\x7boops") (errorPayload (utf16 "boom"))
    [utf16 "data: \x7b\"text\": \"lo\"\x7d\n\n"] [] .done (.failed (utf16 "network error"))
    (by decide) (by decide) (by decide) (by decide) (by decide)
    (Or.inl rfl)
    (Or.inr ⟨.obj [(utf16 "error", .str (utf16 "boom"))], none, some (.str (utf16 "boom")),
      rfl, rfl, rfl, rfl, rfl⟩)).2.2.2 rfl

end ChatApp
